import Mathlib

/-!
Verification of the SpendSmart envelope-budget and rollover engine.

This file shallowly embeds the budget handler (`src/lambda/budgets.js`,
with the single-tenant variant in `src/unnamed/part_000`) over a list
model of the single DynamoDB table.  Amounts are modelled as exact
rationals, JS objects as association lists with unique keys in insertion
order, and the DynamoDB item as a flat record carrying every attribute
the handler reads (attributes a given kind of item never carries are
modelled as the neutral value of their type).
-/

namespace SpendSmart

set_option maxRecDepth 20000

/-- A JS object with number values: association list in insertion order. -/
abbrev Obj := List (String × ℚ)

/-- `m[k] || 0`: value of a key, `0` when the key is absent. -/
def objGet (m : Obj) (k : String) : ℚ := (m.lookup k).getD 0

/-- `m[k] = v`: JS object assignment — replaces the value of an existing
key in place, otherwise appends the key at the end. -/
def objSet (m : Obj) (k : String) (v : ℚ) : Obj :=
  if (m.lookup k).isSome then
    m.map (fun p => if p.1 = k then (p.1, v) else p)
  else
    m ++ [(k, v)]

/-- `if (!m[k]) m[k] = 0; m[k] += v`: add to a key, seeding absent keys
with `0`. -/
def objAdd (m : Obj) (k : String) (v : ℚ) : Obj :=
  if (m.lookup k).isSome then
    m.map (fun p => if p.1 = k then (p.1, p.2 + v) else p)
  else
    m ++ [(k, v)]

/-- DynamoDB `begins_with(s, pre)`.  Modelled on the character list of
the strings (UTF-8 is a prefix code, so character-prefix and byte-prefix
agree). -/
def beginsWith (s pre : String) : Bool := pre.data.isPrefixOf s.data

/-- One item of the single DynamoDB table, flattened: every attribute any
of the embedded code paths reads.  An attribute a given kind of item does
not carry is the neutral value of its type. -/
structure Item where
  pk : String
  sk : String
  gsi1pk : String
  gsi1sk : String
  id : String
  template_name : String
  category : String
  budget_amount : ℚ
  month : String
  rollover_enabled : Bool
  rollover_amount : ℚ
  is_active : Bool
  created_at : String
  user_id : String
  type : String
  amount : ℚ
  date : String
deriving DecidableEq, Repr, Inhabited

abbrev Store := List Item

/-- The envelope partition key `USER#${userId}#ENVELOPE#${template}`. -/
def envPK (u t : String) : String := "USER#" ++ u ++ "#ENVELOPE#" ++ t

/-- The template partition key `USER#${userId}#TEMPLATE#${template}`. -/
def tmplPK (u t : String) : String := "USER#" ++ u ++ "#TEMPLATE#" ++ t

/-- The transaction partition-key prefix `USER#${userId}#TRANSACTION`. -/
def txnPKPrefix (u : String) : String := "USER#" ++ u ++ "#TRANSACTION"

/-- The scan filter of `getOrCreateEnvelopeBudgets` and
`calculateRolloverAmounts`:
`begins_with(PK, "USER#u#ENVELOPE#t") AND #month = :month`. -/
def envScanFilter (u t m : String) (it : Item) : Bool :=
  beginsWith it.pk (envPK u t) && it.month == m

/-- The envelope scan: `ScanCommand` over the table with
`envScanFilter`. -/
def scanEnvelopes (store : Store) (u t m : String) : List Item :=
  store.filter (envScanFilter u t m)

/-- The filter of `getActualSpending`'s scan:
`begins_with(PK, :userPk) AND begins_with(GSI1PK, :monthPrefix) AND #type = :type`
with `:type = 'Expense'`. -/
def expenseTxnFilter (u m : String) (it : Item) : Bool :=
  beginsWith it.pk (txnPKPrefix u) && beginsWith it.gsi1pk ("MONTH#" ++ m) &&
    it.type == "Expense"

/-- The aggregation loop of `getActualSpending`:
`spendingByCategory[item.category] += parseFloat(item.amount)` (seeding
absent categories with `0`). -/
def aggregateSpending (items : List Item) : Obj :=
  items.foldl (fun acc it => objAdd acc it.category it.amount) []

/-- `getActualSpending(month, userId)` given the outcome of its scan:
on a storage error the `catch` block returns the empty object. -/
def getActualSpendingR (scanResult : Except String Store) (m u : String) : Obj :=
  match scanResult with
  | .error _ => []
  | .ok store => aggregateSpending (store.filter (expenseTxnFilter u m))

/-- `getActualSpending(month, userId)` on a store whose reads succeed. -/
def getActualSpending (store : Store) (m u : String) : Obj :=
  getActualSpendingR (.ok store) m u

/-- The body of `calculateRolloverAmounts`'s `forEach`: for a
rollover-enabled previous-month budget row, write
`budget_amount - spent + rollover_amount` into the result when it is
strictly positive. -/
def rolloverStep (previousSpending : Obj) (acc : Obj) (budget : Item) : Obj :=
  if budget.rollover_enabled then
    let spent := objGet previousSpending budget.category
    let remaining := budget.budget_amount - spent + budget.rollover_amount
    if 0 < remaining then objSet acc budget.category remaining else acc
  else acc

/-- `calculateRolloverAmounts(template, previousMonth, userId)` given the
outcomes of its two reads (its own envelope scan, and the scan inside the
nested `getActualSpending` call).  Its `catch` block returns the empty
object on a storage error. -/
def calculateRolloverAmountsR (budgetScan : Except String Store)
    (spendScan : Except String Store) (t prevMonth u : String) : Obj :=
  match budgetScan with
  | .error _ => []
  | .ok store =>
    let existing := scanEnvelopes store u t prevMonth
    if existing.isEmpty then []
    else
      let previousSpending := getActualSpendingR spendScan prevMonth u
      existing.foldl (rolloverStep previousSpending) []

/-- `calculateRolloverAmounts` on a store whose reads succeed. -/
def calculateRolloverAmounts (store : Store) (t prevMonth u : String) : Obj :=
  calculateRolloverAmountsR (.ok store) (.ok store) t prevMonth u

/-! ### Month arithmetic (`getPreviousMonth`)

The handler parses `monthStr.split('-').map(Number)` and runs
`new Date(year, month - 1, 1)` followed by `setMonth(getMonth() - 1)`.
We embed the decimal printing/parsing JS performs on these strings and
the ECMA-262 date normalization: a year argument between 0 and 99 is
taken as 1900 + year, and (year, monthIndex) is normalized by floor
division of the total month count. -/

/-- Fuelled digit printer (structural recursion so that the kernel can
evaluate it; the fuel is always sufficient at the call site). -/
def natDigitsGo : Nat → Nat → List Char
  | 0, _ => []
  | fuel + 1, n =>
    if n < 10 then [Char.ofNat (48 + n)]
    else natDigitsGo fuel (n / 10) ++ [Char.ofNat (48 + n % 10)]

/-- Decimal digit characters of a natural number, most significant
first, as JS `String(n)` prints an integer. -/
def natDigits (n : Nat) : List Char := natDigitsGo (n + 1) n

/-- JS `String(n)` for a natural number. -/
def natToString (n : Nat) : String := ⟨natDigits n⟩

/-- JS `String(i)` for an integer. -/
def intToString (i : Int) : String :=
  if i < 0 then "-" ++ natToString (-i).toNat else natToString i.toNat

/-- JS `Number(s)` on a string of decimal digits, on the character
list.  (`Number("")` is `0`, matching the empty fold.) -/
def parseDigits (cs : List Char) : Nat :=
  cs.foldl (fun a c => a * 10 + (c.toNat - 48)) 0

/-- JS `str.split(sep)` for a one-character separator, on character
lists.  Always returns at least one (possibly empty) chunk. -/
def splitOnChar (c : Char) : List Char → List (List Char)
  | [] => [[]]
  | x :: xs =>
    let r := splitOnChar c xs
    if x = c then [] :: r
    else (x :: r.headD []) :: r.tail

/-- `String(x).padStart(2, '0')` for the month field (which the handler
only applies to values 1..12). -/
def pad2 (n : Nat) : String :=
  if n < 10 then "0" ++ natToString n else natToString n

/-- `getPreviousMonth(monthStr)` from the handler:
`const [year, month] = monthStr.split('-').map(Number);`
`const date = new Date(year, month - 1, 1); date.setMonth(date.getMonth() - 1);`
then `` `${date.getFullYear()}-${String(date.getMonth() + 1).padStart(2, '0')}` ``.

ECMA-262 `Date`: a year argument 0..99 denotes 1900..1999, and
`setMonth` renormalizes the (year, monthIndex) pair by floor division of
the total month count by 12 (`Int./` and `Int.%` are Euclidean division,
which is floor division for the positive divisor 12). -/
def getPreviousMonth (monthStr : String) : String :=
  let parts := (splitOnChar '-' monthStr.data).map parseDigits
  let year : Int := parts.getD 0 0
  let month : Int := parts.getD 1 0
  let yr : Int := if 0 ≤ year ∧ year ≤ 99 then 1900 + year else year
  let total : Int := yr * 12 + (month - 1) - 1
  let prevYear : Int := total / 12
  let prevMonth0 : Int := total % 12
  intToString prevYear ++ "-" ++ pad2 (prevMonth0 + 1).toNat

/-- The `YYYY-MM` string for a year/month pair, with the month field
zero-padded to two digits (used to state the month-arithmetic claims). -/
def monthString (y m : Nat) : String :=
  natToString y ++ "-" ++ pad2 m

/-! ### Envelope creation pipeline -/

/-- A template category entry: the three fields the envelope-creation
loop reads from a template row. -/
structure TemplateCategory where
  category : String
  budget_amount : ℚ
  rollover_enabled : Bool
deriving DecidableEq, Repr

/-- The module-level default template preset (`getDefaultTemplateCategories`). -/
def getDefaultTemplateCategories : List TemplateCategory :=
  [⟨"Food", 500, true⟩,
   ⟨"Transportation", 300, false⟩,
   ⟨"Entertainment", 200, true⟩,
   ⟨"Shopping", 400, false⟩,
   ⟨"Bills", 800, false⟩,
   ⟨"Healthcare", 150, true⟩]

/-- The template row `createDefaultTemplate` writes for one preset
category. -/
def defaultTemplateItem (u templateName ts : String) (c : TemplateCategory) : Item where
  pk := tmplPK u templateName
  sk := "CATEGORY#" ++ c.category
  gsi1pk := "USER#" ++ u ++ "#TEMPLATE_CATEGORY#" ++ c.category
  gsi1sk := templateName ++ "#" ++ c.category
  id := ""
  template_name := templateName
  category := c.category
  budget_amount := c.budget_amount
  month := ""
  rollover_enabled := c.rollover_enabled
  rollover_amount := 0
  is_active := true
  created_at := ts
  user_id := u
  type := ""
  amount := 0
  date := ""

/-- A DynamoDB put: replaces the item with the same (PK, SK) key, or
inserts the item when the key is absent. -/
def storePut (store : Store) (it : Item) : Store :=
  if store.any (fun o => o.pk == it.pk && o.sk == it.sk) then
    store.map (fun o => if o.pk == it.pk && o.sk == it.sk then it else o)
  else store ++ [it]

/-- `BatchWriteCommand` over put requests.  The handler chunks requests
into groups of 25; chunking does not change the final table state, so
the model applies the puts in order. -/
def batchPut (store : Store) (items : List Item) : Store :=
  items.foldl storePut store

/-- The projection of an envelope item the handler returns to its
caller (`rollover_amount: item.rollover_amount || 0`; attributes are
total in the model, so the `|| 0` default for a missing attribute is
the field itself). -/
structure BudgetView where
  id : String
  template_name : String
  category : String
  budget_amount : ℚ
  month : String
  rollover_enabled : Bool
  rollover_amount : ℚ
  is_active : Bool
  created_at : String
deriving DecidableEq, Repr

def toBudgetView (it : Item) : BudgetView where
  id := it.id
  template_name := it.template_name
  category := it.category
  budget_amount := it.budget_amount
  month := it.month
  rollover_enabled := it.rollover_enabled
  rollover_amount := it.rollover_amount
  is_active := it.is_active
  created_at := it.created_at

/-- The envelope row constructed for one template category inside
`createEnvelopeBudgetsFromTemplate`. -/
def mkEnvelopeItem (u t m ts : String) (nowMs : Nat) (rolloverAmounts : Obj)
    (tc : TemplateCategory) : Item where
  pk := envPK u t
  sk := m ++ "#" ++ tc.category
  gsi1pk := "USER#" ++ u ++ "#ENVELOPE_MONTH#" ++ m
  gsi1sk := t ++ "#" ++ tc.category
  id := t ++ "-" ++ m ++ "-" ++ tc.category ++ "-" ++ natToString nowMs
  template_name := t
  category := tc.category
  budget_amount := tc.budget_amount
  month := m
  rollover_enabled := tc.rollover_enabled
  rollover_amount := objGet rolloverAmounts tc.category
  is_active := true
  created_at := ts
  user_id := u
  type := ""
  amount := 0
  date := ""

/-- The three fields of a template row the creation loop reads. -/
def itemToTemplateCategory (it : Item) : TemplateCategory :=
  ⟨it.category, it.budget_amount, it.rollover_enabled⟩

/-- `[...new Set(arr)]`: deduplication keeping first occurrences. -/
def jsSetDedup (l : List String) : List String :=
  l.foldl (fun acc x => if acc.contains x then acc else acc ++ [x]) []

/-- The `TemplateNotFound` error message thrown by
`createEnvelopeBudgetsFromTemplate`. -/
def templateNotFoundMsg (t : String) (names : List String) : String :=
  "Template \"" ++ t ++ "\" not found. Available templates: " ++ String.intercalate ", " names

/-- Injects a modelled storage failure into a read of the current
table: `none` means the read succeeds and sees `store`. -/
def mkScan (failure : Option String) (store : Store) : Except String Store :=
  match failure with
  | some msg => .error msg
  | none => .ok store

/-- The tail of `createEnvelopeBudgetsFromTemplate` once the template
categories are in hand: compute the previous month, the rollover map
(whose two store reads may be failure-injected), build one envelope row
per category, batch-write them, and return the projected views. -/
def finishCreate (store : Store) (budgetScanE spendScanE : Option String)
    (cats : List TemplateCategory) (t m u ts : String) (nowMs : Nat) :
    List BudgetView × Store :=
  let previousMonth := getPreviousMonth m
  let rolloverAmounts :=
    calculateRolloverAmountsR (mkScan budgetScanE store) (mkScan spendScanE store)
      t previousMonth u
  let newItems := cats.map (mkEnvelopeItem u t m ts nowMs rolloverAmounts)
  (newItems.map toBudgetView, batchPut store newItems)

/-- `createEnvelopeBudgetsFromTemplate(template, month, userId)`, with
the two rollover-side store reads failure-injectable.  `ts` models
`new Date().toISOString()` and `nowMs` models `Date.now()`. -/
def createEnvelopeBudgetsFromTemplateR (store : Store)
    (budgetScanE spendScanE : Option String) (t m u ts : String) (nowMs : Nat) :
    Except String (List BudgetView × Store) :=
  let templateItems := store.filter (fun it => it.pk == tmplPK u t)
  if templateItems.isEmpty then
    let allTemplates := store.filter (fun it => beginsWith it.pk ("USER#" ++ u ++ "#TEMPLATE#"))
    let templateNames := jsSetDedup (allTemplates.map (fun it => it.template_name))
    if t == "Default" && templateNames.isEmpty then
      let defaultCategories := getDefaultTemplateCategories
      let store1 := batchPut store (defaultCategories.map (defaultTemplateItem u "Default" ts))
      .ok (finishCreate store1 budgetScanE spendScanE defaultCategories t m u ts nowMs)
    else
      .error (templateNotFoundMsg t templateNames)
  else
    .ok (finishCreate store budgetScanE spendScanE
          (templateItems.map itemToTemplateCategory) t m u ts nowMs)

/-- `createEnvelopeBudgetsFromTemplate` with all reads succeeding. -/
def createEnvelopeBudgetsFromTemplate (store : Store) (t m u ts : String) (nowMs : Nat) :
    Except String (List BudgetView × Store) :=
  createEnvelopeBudgetsFromTemplateR store none none t m u ts nowMs

/-- `getOrCreateEnvelopeBudgets(template, month, userId)`: return the
rows found by the envelope scan when it is non-empty, otherwise derive
and persist them from the template.  The rollover-side reads of the
creation path may be failure-injected. -/
def getOrCreateEnvelopeBudgetsR (store : Store) (budgetScanE spendScanE : Option String)
    (t m u ts : String) (nowMs : Nat) : Except String (List BudgetView × Store) :=
  let existing := scanEnvelopes store u t m
  if existing.isEmpty then
    createEnvelopeBudgetsFromTemplateR store budgetScanE spendScanE t m u ts nowMs
  else
    .ok (existing.map toBudgetView, store)

/-- `getOrCreateEnvelopeBudgets` with all reads succeeding. -/
def getOrCreateEnvelopeBudgets (store : Store) (t m u ts : String) (nowMs : Nat) :
    Except String (List BudgetView × Store) :=
  getOrCreateEnvelopeBudgetsR store none none t m u ts nowMs

/-! ### Budget-amount updates (`updateEnvelopeBudget`) -/

/-- One `UpdateCommand` of `updateEnvelopeBudget`:
`Key {PK: USER#u#ENVELOPE#t, SK: month#category}` with
`UpdateExpression 'SET budget_amount = :amount'`.  DynamoDB `UpdateItem`
upserts: when the key is absent it creates an item carrying only the key
and the set attribute (remaining attributes are the model's neutral
values). -/
def applyBudgetUpdate (u t m : String) (store : Store) (b : String × ℚ) : Store :=
  let pk := envPK u t
  let sk := m ++ "#" ++ b.1
  if store.any (fun o => o.pk == pk && o.sk == sk) then
    store.map (fun o => if o.pk == pk && o.sk == sk then { o with budget_amount := b.2 } else o)
  else
    store ++ [{ (default : Item) with pk := pk, sk := sk, budget_amount := b.2 }]

/-- `updateEnvelopeBudget`'s loop over the request's
`{category, budget_amount}` entries (the independent per-key
`UpdateCommand`s applied in order). -/
def updateEnvelopeBudgets (store : Store) (u t m : String)
    (budgets : List (String × ℚ)) : Store :=
  budgets.foldl (applyBudgetUpdate u t m) store

/-! ### Budget analysis (`calculateBudgetAnalysis`) -/

/-- JS `Math.round`: half-up, ties toward positive infinity. -/
def jsRound (x : ℚ) : ℤ := ⌊x + 1/2⌋

/-- `Math.round(x * 100) / 100`: round to two decimal places. -/
def round2 (x : ℚ) : ℚ := (jsRound (x * 100) : ℚ) / 100

/-- One entry of the per-category analysis list. -/
structure CategoryResult where
  category : String
  budgeted : ℚ
  actual : ℚ
  remaining : ℚ
  percentage : ℚ
  rollover_enabled : Bool
  rollover_amount : ℚ
  has_budget : Bool
  unbudgeted_spending : Bool
deriving DecidableEq, Repr

/-- The analysis summary object. -/
structure Summary where
  totalBudgeted : ℚ
  totalActual : ℚ
  totalRemaining : ℚ
  overBudgetCategories : Nat
  budgetUtilization : ℚ
deriving DecidableEq, Repr

structure AnalysisResult where
  categoryAnalysis : List CategoryResult
  summary : Summary
deriving DecidableEq, Repr

/-- The `CategoryResult` pushed for one budget row in the first
`forEach` of `calculateBudgetAnalysis`. -/
def mkBudgetResult (actualSpending : Obj) (budget : BudgetView) : CategoryResult :=
  let actual := objGet actualSpending budget.category
  let totalBudgetAmount := budget.budget_amount + budget.rollover_amount
  let remaining := totalBudgetAmount - actual
  let percentage := if 0 < totalBudgetAmount then actual / totalBudgetAmount * 100 else 0
  { category := budget.category
    budgeted := totalBudgetAmount
    actual := actual
    remaining := remaining
    percentage := round2 percentage
    rollover_enabled := budget.rollover_enabled
    rollover_amount := budget.rollover_amount
    has_budget := true
    unbudgeted_spending := false }

/-- The `CategoryResult` pushed for a category with spending but no
budget row. -/
def mkUnbudgetedResult (category : String) (actual : ℚ) : CategoryResult :=
  { category := category
    budgeted := 0
    actual := actual
    remaining := -actual
    percentage := 0
    rollover_enabled := false
    rollover_amount := 0
    has_budget := false
    unbudgeted_spending := true }

/-- The running state of `calculateBudgetAnalysis`: the pushed rows and
the `totalBudgeted` / `totalActual` / `overBudgetCategories`
accumulators. -/
structure AnalysisAcc where
  rows : List CategoryResult
  totalBudgeted : ℚ
  totalActual : ℚ
  overBudgetCategories : Nat
deriving DecidableEq, Repr

/-- The body of the first `forEach` (one budget row). -/
def budgetStep (actualSpending : Obj) (acc : AnalysisAcc) (budget : BudgetView) : AnalysisAcc :=
  let actual := objGet actualSpending budget.category
  let totalBudgetAmount := budget.budget_amount + budget.rollover_amount
  { rows := acc.rows ++ [mkBudgetResult actualSpending budget]
    totalBudgeted := acc.totalBudgeted + totalBudgetAmount
    totalActual := acc.totalActual + actual
    overBudgetCategories :=
      acc.overBudgetCategories + (if totalBudgetAmount < actual then 1 else 0) }

/-- The body of the second `forEach` (one key of `actualSpending`):
categories in `budgetedCategories` are skipped, others are appended as
unbudgeted spending and added to the running `totalActual` only. -/
def unbudgetedStep (budgets : List BudgetView) (actualSpending : Obj)
    (acc : AnalysisAcc) (kv : String × ℚ) : AnalysisAcc :=
  let budgetedCategories := budgets.map (fun b => b.category)
  if budgetedCategories.contains kv.1 then acc
  else
    let actual := objGet actualSpending kv.1
    { acc with
        rows := acc.rows ++ [mkUnbudgetedResult kv.1 actual]
        totalActual := acc.totalActual + actual }

/-- The state after the first `forEach` over the budget rows. -/
def analysisPass1 (budgets : List BudgetView) (actualSpending : Obj) : AnalysisAcc :=
  budgets.foldl (budgetStep actualSpending) ⟨[], 0, 0, 0⟩

/-- The state after the second `forEach` over `Object.keys(actualSpending)`. -/
def analysisPass2 (budgets : List BudgetView) (actualSpending : Obj) : AnalysisAcc :=
  actualSpending.foldl (unbudgetedStep budgets actualSpending) (analysisPass1 budgets actualSpending)

/-- `calculateBudgetAnalysis(budgets, actualSpending)`. -/
def calculateBudgetAnalysis (budgets : List BudgetView) (actualSpending : Obj) : AnalysisResult :=
  let acc := analysisPass2 budgets actualSpending
  let totalRemaining := acc.totalBudgeted - acc.totalActual
  let budgetUtilization :=
    if 0 < acc.totalBudgeted then acc.totalActual / acc.totalBudgeted * 100 else 0
  { categoryAnalysis := acc.rows
    summary :=
      { totalBudgeted := round2 acc.totalBudgeted
        totalActual := round2 acc.totalActual
        totalRemaining := round2 totalRemaining
        overBudgetCategories := acc.overBudgetCategories
        budgetUtilization := round2 budgetUtilization } }

/-! ### Lemmas about the JS-object model -/

theorem lookup_map_entry_self (tl : Obj) (k : String) (f : String × ℚ → ℚ) :
    (tl.map (fun p => if p.1 = k then (p.1, f p) else p)).lookup k =
      (tl.find? (fun p => p.1 == k)).map f := by
  induction tl with
  | nil => simp
  | cons p tl ih =>
    obtain ⟨a, b⟩ := p
    by_cases hp : a = k
    · subst hp
      simp [List.find?]
    · have ha : (k == a) = false := by simp [Ne.symm hp]
      have ha' : (a == k) = false := by simp [hp]
      simp only [List.map_cons, if_neg hp, List.lookup_cons, ha, List.find?, ha']
      exact ih

theorem lookup_map_entry_ne (tl : Obj) (k k' : String) (f : String × ℚ → ℚ)
    (h : k' ≠ k) :
    (tl.map (fun p => if p.1 = k then (p.1, f p) else p)).lookup k' = tl.lookup k' := by
  induction tl with
  | nil => simp
  | cons p tl ih =>
    obtain ⟨a, b⟩ := p
    by_cases hp : a = k
    · subst hp
      have ha : (k' == a) = false := by simp [h]
      have hstep : List.lookup k' (List.map (fun p => if p.1 = a then (p.1, f p) else p) ((a, b) :: tl))
          = List.lookup k' (List.map (fun p => if p.1 = a then (p.1, f p) else p) tl) := by
        simp only [List.map_cons, if_true, eq_self_iff_true, List.lookup_cons, ha]
      rw [hstep, ih, List.lookup_cons, ha]
    · simp only [List.map_cons, if_neg hp, List.lookup_cons]
      cases hk : (k' == a) with
      | false => exact ih
      | true => rfl

theorem find?_key_of_lookup_isSome (m : Obj) (k : String)
    (h : (m.lookup k).isSome = true) :
    (m.find? (fun p => p.1 == k)).map (fun p => p.2) = m.lookup k := by
  induction m with
  | nil => simp at h
  | cons p tl ih =>
    obtain ⟨a, b⟩ := p
    by_cases hp : a = k
    · subst hp
      simp [List.find?]
    · have ha : (k == a) = false := by simp [Ne.symm hp]
      have ha' : (a == k) = false := by simp [hp]
      simp only [List.lookup_cons, ha, List.find?, ha'] at h ⊢
      exact ih h

theorem objSet_lookup_self (m : Obj) (k : String) (v : ℚ) :
    (objSet m k v).lookup k = some v := by
  unfold objSet
  split
  case isTrue h =>
    rw [lookup_map_entry_self]
    have hs : (m.find? (fun p => p.1 == k)).isSome = true := by
      have := congrArg Option.isSome (find?_key_of_lookup_isSome m k h)
      simpa [h] using this
    obtain ⟨q, hq⟩ := Option.isSome_iff_exists.mp hs
    rw [hq]
    rfl
  case isFalse h =>
    rw [List.lookup_append, Option.not_isSome_iff_eq_none.mp h]
    simp

theorem objSet_lookup_ne (m : Obj) (k k' : String) (v : ℚ) (h : k' ≠ k) :
    (objSet m k v).lookup k' = m.lookup k' := by
  unfold objSet
  split
  case isTrue _ => exact lookup_map_entry_ne m k k' _ h
  case isFalse _ =>
    rw [List.lookup_append]
    have ha : (k' == k) = false := by simp [h]
    have : ([(k, v)] : Obj).lookup k' = none := by simp [List.lookup_cons, ha]
    rw [this, Option.or_none]

theorem objAdd_lookup_self (m : Obj) (k : String) (v : ℚ) :
    (objAdd m k v).lookup k = some ((m.lookup k).getD 0 + v) := by
  unfold objAdd
  split
  case isTrue h =>
    rw [lookup_map_entry_self]
    have hv := find?_key_of_lookup_isSome m k h
    cases hfind : m.find? (fun p => p.1 == k) with
    | none =>
      rw [hfind] at hv
      simp only [Option.map_none'] at hv
      rw [← hv] at h
      simp at h
    | some q =>
      rw [hfind] at hv
      simp only [Option.map_some'] at hv
      rw [← hv]
      rfl
  case isFalse h =>
    rw [List.lookup_append, Option.not_isSome_iff_eq_none.mp h]
    simp

theorem objAdd_lookup_ne (m : Obj) (k k' : String) (v : ℚ) (h : k' ≠ k) :
    (objAdd m k v).lookup k' = m.lookup k' := by
  unfold objAdd
  split
  case isTrue _ => exact lookup_map_entry_ne m k k' _ h
  case isFalse _ =>
    rw [List.lookup_append]
    have ha : (k' == k) = false := by simp [h]
    have : ([(k, v)] : Obj).lookup k' = none := by simp [List.lookup_cons, ha]
    rw [this, Option.or_none]

/-! ### The scope reading of the envelope scan

`begins_with(PK, "USER#u#ENVELOPE#t")` matches every partition key that
extends the scope's, i.e. also the rows of any template whose name has
`t` as a proper prefix.  When no such foreign row is present for the
queried month, the scan is exactly the scope query. -/

theorem beginsWith_self (s : String) : beginsWith s s = true := by
  simp [beginsWith]

theorem scanEnvelopes_eq_scope (store : Store) (u t m : String)
    (hnoext : ∀ it ∈ store, beginsWith it.pk (envPK u t) = true → it.month = m →
      it.pk = envPK u t) :
    scanEnvelopes store u t m =
      store.filter (fun it => it.pk == envPK u t && it.month == m) := by
  unfold scanEnvelopes
  refine List.filter_congr ?_
  intro it hit
  unfold envScanFilter
  cases hbw : beginsWith it.pk (envPK u t) with
  | false =>
    have : (it.pk == envPK u t) = false := by
      cases hpk : (it.pk == envPK u t) with
      | false => rfl
      | true =>
        have : it.pk = envPK u t := by simpa using hpk
        rw [this, beginsWith_self] at hbw
        exact absurd hbw (by simp)
    simp [this]
  | true =>
    cases hm : (it.month == m) with
    | false => simp [hm]
    | true =>
      have hpk : it.pk = envPK u t := hnoext it hit hbw (by simpa using hm)
      simp [hpk, hm]

/-! ### Rollover characterization -/

theorem find?_eq_some_of_mem_nodup (l : List Item) (b : Item) (c : String)
    (hnd : (l.map (fun x => x.category)).Nodup) (hb : b ∈ l) (hbc : b.category = c) :
    l.find? (fun x => x.category == c) = some b := by
  induction l with
  | nil => simp at hb
  | cons hd tl ih =>
    have hnd2 := hnd
    rw [List.map_cons] at hnd2
    have hnd' := List.nodup_cons.mp hnd2
    rcases List.mem_cons.mp hb with hb | hb
    · subst hb
      exact List.find?_cons_of_pos _ (by simpa using hbc)
    · have hhd : hd.category ≠ c := by
        intro hc
        have : hd.category ∈ tl.map (fun x => x.category) := by
          rw [hc, ← hbc]
          exact List.mem_map_of_mem (fun x => x.category) hb
        exact hnd'.1 this
      rw [List.find?_cons_of_neg _ (by simpa using hhd)]
      exact ih hnd'.2 hb

theorem rollover_foldl_lookup (sp : Obj) (l : List Item)
    (hnd : (l.map (fun b => b.category)).Nodup) (acc : Obj) (c : String) :
    (l.foldl (rolloverStep sp) acc).lookup c =
      match l.find? (fun b => b.category == c) with
      | some b =>
        if b.rollover_enabled = true ∧
            0 < b.budget_amount - objGet sp b.category + b.rollover_amount
        then some (b.budget_amount - objGet sp b.category + b.rollover_amount)
        else acc.lookup c
      | none => acc.lookup c := by
  induction l generalizing acc with
  | nil => simp
  | cons b l ih =>
    have hnd2 := hnd
    rw [List.map_cons] at hnd2
    have hnd' := List.nodup_cons.mp hnd2
    rw [List.foldl_cons]
    by_cases hbc : b.category = c
    · have hfind : (b :: l).find? (fun x => x.category == c) = some b :=
        List.find?_cons_of_pos _ (by simpa using hbc)
      have hnotin : l.find? (fun x => x.category == c) = none := by
        apply List.find?_eq_none.mpr
        intro x hx
        simp only [beq_iff_eq]
        intro hxc
        have : b.category ∈ l.map (fun y => y.category) := by
          rw [hbc, ← hxc]
          exact List.mem_map_of_mem (fun y => y.category) hx
        exact hnd'.1 this
      rw [ih hnd'.2 (rolloverStep sp acc b)]
      simp only [hfind, hnotin]
      simp only [rolloverStep]
      by_cases he : b.rollover_enabled = true
      · by_cases hr : 0 < b.budget_amount - objGet sp b.category + b.rollover_amount
        · rw [if_pos he, if_pos hr, if_pos ⟨he, hr⟩]
          rw [hbc]
          exact objSet_lookup_self acc c _
        · rw [if_pos he, if_neg hr, if_neg (fun hc => hr hc.2)]
      · rw [if_neg he, if_neg (fun hc => he hc.1)]
    · have hfind : (b :: l).find? (fun x => x.category == c) = l.find? (fun x => x.category == c) :=
        List.find?_cons_of_neg _ (by simpa using hbc)
      rw [ih hnd'.2 (rolloverStep sp acc b), hfind]
      have hstep : (rolloverStep sp acc b).lookup c = acc.lookup c := by
        simp only [rolloverStep]
        split
        · split
          · exact objSet_lookup_ne acc b.category c _ (fun hh => hbc hh.symm)
          · rfl
        · rfl
      cases hf : l.find? (fun x => x.category == c) with
      | none => exact hstep
      | some q =>
        dsimp only
        split
        · rfl
        · exact hstep

/-- The scope filter for envelope rows of (owner `u`, template `t`,
month `m`): the well-formed-row reading of "the EnvelopeBudget rows for
that scope". -/
def scopeRows (store : Store) (u t m : String) : List Item :=
  store.filter (fun it => it.pk == envPK u t && it.month == m)

/-- C1.  Amended: the scan backing RolloverCalc matches every partition
key extending the scope's, so the characterization holds provided no
foreign row (one whose template name properly extends `t`) is stored for
the previous month; categories are unique per scope as DynamoDB keys
enforce.  Under those hypotheses: the result is empty when the scope has
no rows, and it maps exactly the rollover-enabled previous-month rows
with positive remaining `budget_amount - actual + rollover_amount` to
that remaining. -/
theorem rolloverCalc_scope_spec (store : Store) (t prevM u : String)
    (hnoext : ∀ it ∈ store, beginsWith it.pk (envPK u t) = true → it.month = prevM →
      it.pk = envPK u t)
    (hnd : ((scopeRows store u t prevM).map (fun b => b.category)).Nodup) :
    (scopeRows store u t prevM = [] → calculateRolloverAmounts store t prevM u = []) ∧
    (∀ c r, (calculateRolloverAmounts store t prevM u).lookup c = some r ↔
      ∃ it ∈ store, it.pk = envPK u t ∧ it.month = prevM ∧ it.category = c ∧
        it.rollover_enabled = true ∧
        r = it.budget_amount - objGet (getActualSpending store prevM u) c + it.rollover_amount ∧
        0 < r) := by
  have hscan : scanEnvelopes store u t prevM = scopeRows store u t prevM :=
    scanEnvelopes_eq_scope store u t prevM hnoext
  have hcalc : calculateRolloverAmounts store t prevM u =
      (if (scopeRows store u t prevM).isEmpty then []
       else (scopeRows store u t prevM).foldl
         (rolloverStep (getActualSpending store prevM u)) []) := by
    simp only [calculateRolloverAmounts, calculateRolloverAmountsR, hscan]
    rfl
  constructor
  · intro hempty
    rw [hcalc, hempty]
    rfl
  · intro c r
    by_cases hempty : scopeRows store u t prevM = []
    · have hres : calculateRolloverAmounts store t prevM u = [] := by
        rw [hcalc, hempty]
        rfl
      rw [hres]
      simp only [List.lookup_nil]
      constructor
      · intro hx
        exact absurd hx (by simp)
      · rintro ⟨it, hit, hpk, hm, -⟩
        have : it ∈ scopeRows store u t prevM := by
          unfold scopeRows
          rw [List.mem_filter]
          exact ⟨hit, by simp [hpk, hm]⟩
        rw [hempty] at this
        simp at this
    · rw [hcalc, if_neg (by simpa [List.isEmpty_iff] using hempty)]
      rw [rollover_foldl_lookup _ _ hnd [] c]
      constructor
      · intro hx
        cases hfind : (scopeRows store u t prevM).find? (fun b => b.category == c) with
        | none => rw [hfind] at hx; simp at hx
        | some b =>
          rw [hfind] at hx
          dsimp only at hx
          have hbmem : b ∈ scopeRows store u t prevM := List.mem_of_find?_eq_some hfind
          have hbcat : b.category = c := by simpa using List.find?_some hfind
          have hbstore := List.mem_filter.mp hbmem
          have hpk : b.pk = envPK u t := by
            have h2 := hbstore.2
            simp only [Bool.and_eq_true, beq_iff_eq] at h2
            exact h2.1
          have hm : b.month = prevM := by
            have h2 := hbstore.2
            simp only [Bool.and_eq_true, beq_iff_eq] at h2
            exact h2.2
          by_cases hcond : b.rollover_enabled = true ∧
              0 < b.budget_amount - objGet (getActualSpending store prevM u) b.category +
                b.rollover_amount
          · rw [if_pos hcond] at hx
            have hval : b.budget_amount - objGet (getActualSpending store prevM u) b.category +
                b.rollover_amount = r := Option.some.inj hx
            refine ⟨b, hbstore.1, hpk, hm, hbcat, hcond.1, ?_, ?_⟩
            · rw [← hbcat, hval]
            · rw [← hval]
              exact hcond.2
          · rw [if_neg hcond] at hx
            simp at hx
      · rintro ⟨it, hit, hpk, hm, hcat, hen, hr, hpos⟩
        have hmem : it ∈ scopeRows store u t prevM := by
          unfold scopeRows
          rw [List.mem_filter]
          exact ⟨hit, by simp [hpk, hm]⟩
        rw [find?_eq_some_of_mem_nodup _ it c hnd hmem hcat]
        dsimp only
        have hval : it.budget_amount - objGet (getActualSpending store prevM u) it.category +
            it.rollover_amount = r := by rw [hcat, ← hr]
        rw [if_pos ⟨hen, by rw [hval]; exact hpos⟩, hval]

/-- A well-formed envelope row as `createEnvelopeBudgetsFromTemplate`
writes it, used by the concrete instances below. -/
def testEnvItem (u t m c : String) (ba : ℚ) (re : Bool) (ra : ℚ) : Item where
  pk := envPK u t
  sk := m ++ "#" ++ c
  gsi1pk := "USER#" ++ u ++ "#ENVELOPE_MONTH#" ++ m
  gsi1sk := t ++ "#" ++ c
  id := t ++ "-" ++ m ++ "-" ++ c ++ "-0"
  template_name := t
  category := c
  budget_amount := ba
  month := m
  rollover_enabled := re
  rollover_amount := ra
  is_active := true
  created_at := "2024-01-01T00:00:00.000Z"
  user_id := u
  type := ""
  amount := 0
  date := ""

/-- C1 counterexample: with only a row of template `"AB"` stored for
month 2024-01, no EnvelopeBudget row exists for (owner `u1`, template
`"A"`, previous month 2024-01), yet `calculateRolloverAmounts` for
template `"A"` returns `{Food: 500}` rather than the empty map, because
`begins_with(PK, "USER#u1#ENVELOPE#A")` also matches the `"AB"` row. -/
theorem rolloverCalc_prefix_counterexample :
    (∀ it ∈ [testEnvItem "u1" "AB" "2024-01" "Food" 500 true 0],
      ¬(it.pk = envPK "u1" "A" ∧ it.month = "2024-01")) ∧
    calculateRolloverAmounts [testEnvItem "u1" "AB" "2024-01" "Food" 500 true 0]
      "A" "2024-01" "u1" = [("Food", 500)] ∧
    calculateRolloverAmounts [testEnvItem "u1" "AB" "2024-01" "Food" 500 true 0]
      "A" "2024-01" "u1" ≠ [] := by
  refine ⟨by decide, ?_, ?_⟩
  · with_unfolding_all decide
  · with_unfolding_all decide

/-- Witness for `rolloverCalc_scope_spec` at a one-row store. -/
theorem rolloverCalc_scope_spec_witness :
    (∀ it ∈ [testEnvItem "u1" "T" "2024-01" "Food" 500 true 0],
      beginsWith it.pk (envPK "u1" "T") = true → it.month = "2024-01" →
        it.pk = envPK "u1" "T") ∧
    (((scopeRows [testEnvItem "u1" "T" "2024-01" "Food" 500 true 0] "u1" "T" "2024-01").map
      (fun b => b.category)).Nodup) ∧
    ((scopeRows [testEnvItem "u1" "T" "2024-01" "Food" 500 true 0] "u1" "T" "2024-01" = [] →
      calculateRolloverAmounts [testEnvItem "u1" "T" "2024-01" "Food" 500 true 0]
        "T" "2024-01" "u1" = []) ∧
    (∀ c r, (calculateRolloverAmounts [testEnvItem "u1" "T" "2024-01" "Food" 500 true 0]
        "T" "2024-01" "u1").lookup c = some r ↔
      ∃ it ∈ [testEnvItem "u1" "T" "2024-01" "Food" 500 true 0], it.pk = envPK "u1" "T" ∧
        it.month = "2024-01" ∧ it.category = c ∧ it.rollover_enabled = true ∧
        r = it.budget_amount - objGet (getActualSpending
          [testEnvItem "u1" "T" "2024-01" "Food" 500 true 0] "2024-01" "u1") c +
          it.rollover_amount ∧
        0 < r)) :=
  ⟨by decide, by decide,
    rolloverCalc_scope_spec [testEnvItem "u1" "T" "2024-01" "Food" 500 true 0]
      "T" "2024-01" "u1" (by decide) (by decide)⟩

/-! ### C2: get-or-create on an existing month -/

/-- C2.  Amended: provided additionally that no stored envelope row of
the same month has a partition key properly extending the scope's (the
scan's `begins_with` would match such rows of a template whose name
extends the requested one), `getOrCreateEnvelopeBudgets` on a store that
has rows for the scope returns exactly those rows and leaves the store
unchanged — for any call time, so two sequential calls return the same
set and the second performs no write. -/
theorem getOrCreate_existing_spec (store : Store) (t m u : String)
    (hex : ∃ it ∈ store, it.pk = envPK u t ∧ it.month = m)
    (hnoext : ∀ it ∈ store, beginsWith it.pk (envPK u t) = true → it.month = m →
      it.pk = envPK u t) :
    ∀ ts nowMs, getOrCreateEnvelopeBudgets store t m u ts nowMs =
      .ok ((scopeRows store u t m).map toBudgetView, store) := by
  intro ts nowMs
  have hscan : scanEnvelopes store u t m = scopeRows store u t m :=
    scanEnvelopes_eq_scope store u t m hnoext
  have hne : ¬((scopeRows store u t m).isEmpty = true) := by
    obtain ⟨it, hit, hpk, hm⟩ := hex
    intro hcontra
    have hmem : it ∈ scopeRows store u t m := by
      unfold scopeRows
      rw [List.mem_filter]
      exact ⟨hit, by simp [hpk, hm]⟩
    rw [List.isEmpty_iff.mp hcontra] at hmem
    simp at hmem
  simp only [getOrCreateEnvelopeBudgets, getOrCreateEnvelopeBudgetsR, hscan]
  rw [if_neg hne]

/-- C2 counterexample: the store holds exactly one row for scope
(owner `u1`, template `"A"`, month 2024-01) — so the claim's premise
holds — but a row of template `"AB"` for the same month also matches the
scan, and the call returns two rows instead of exactly the scope's one
(the store is still left unchanged). -/
theorem getOrCreate_prefix_counterexample :
    (∃ it ∈ [testEnvItem "u1" "A" "2024-01" "X" 100 false 0,
             testEnvItem "u1" "AB" "2024-01" "Y" 200 false 0],
      it.pk = envPK "u1" "A" ∧ it.month = "2024-01") ∧
    (scopeRows [testEnvItem "u1" "A" "2024-01" "X" 100 false 0,
                testEnvItem "u1" "AB" "2024-01" "Y" 200 false 0] "u1" "A" "2024-01").length = 1 ∧
    (getOrCreateEnvelopeBudgets [testEnvItem "u1" "A" "2024-01" "X" 100 false 0,
        testEnvItem "u1" "AB" "2024-01" "Y" 200 false 0] "A" "2024-01" "u1" "t0" 0).toOption.map
      (fun p => (p.1.map (fun v => v.template_name), p.2.length)) =
      some (["A", "AB"], 2) := by
  refine ⟨by decide, by decide, ?_⟩
  with_unfolding_all decide

/-- Witness for `getOrCreate_existing_spec` at a one-row store. -/
theorem getOrCreate_existing_spec_witness :
    (∃ it ∈ [testEnvItem "u1" "T" "2024-03" "Food" 500 true 0],
      it.pk = envPK "u1" "T" ∧ it.month = "2024-03") ∧
    (∀ it ∈ [testEnvItem "u1" "T" "2024-03" "Food" 500 true 0],
      beginsWith it.pk (envPK "u1" "T") = true → it.month = "2024-03" →
        it.pk = envPK "u1" "T") ∧
    (∀ ts nowMs, getOrCreateEnvelopeBudgets [testEnvItem "u1" "T" "2024-03" "Food" 500 true 0]
        "T" "2024-03" "u1" ts nowMs =
      .ok ((scopeRows [testEnvItem "u1" "T" "2024-03" "Food" 500 true 0] "u1" "T" "2024-03").map
        toBudgetView, [testEnvItem "u1" "T" "2024-03" "Food" 500 true 0])) :=
  ⟨by decide, by decide,
    getOrCreate_existing_spec [testEnvItem "u1" "T" "2024-03" "Food" 500 true 0]
      "T" "2024-03" "u1" (by decide) (by decide)⟩

/-! ### C3: template-not-found and default-template auto-provisioning -/

theorem string_append_left_cancel {s a b : String} (h : s ++ a = s ++ b) : a = b := by
  apply String.ext
  have hd := congrArg String.data h
  simp only [String.data_append] at hd
  exact List.append_cancel_left hd

theorem envPK_ne_tmplPK (u t t2 : String) : envPK u t ≠ tmplPK u t2 := by
  intro h
  unfold envPK tmplPK at h
  rw [String.append_assoc, String.append_assoc, String.append_assoc, String.append_assoc] at h
  have h1 := string_append_left_cancel (string_append_left_cancel h)
  have hd := congrArg String.data h1
  simp only [String.data_append] at hd
  have h3 := List.append_inj_left hd (by decide)
  exact absurd h3 (by decide)

theorem storePut_mem_self (store : Store) (it : Item) : it ∈ storePut store it := by
  unfold storePut
  split
  case isTrue h =>
    obtain ⟨o, ho, hkey⟩ := List.any_eq_true.mp h
    exact List.mem_map.mpr ⟨o, ho, by rw [if_pos hkey]⟩
  case isFalse _ =>
    exact List.mem_append.mpr (Or.inr (List.mem_singleton.mpr rfl))

theorem storePut_mem_of_ne_key (store : Store) (x it : Item)
    (hmem : it ∈ store) (hne : ¬(it.pk = x.pk ∧ it.sk = x.sk)) : it ∈ storePut store x := by
  unfold storePut
  split
  case isTrue _ =>
    refine List.mem_map.mpr ⟨it, hmem, ?_⟩
    rw [if_neg (by simpa using hne)]
  case isFalse _ =>
    exact List.mem_append.mpr (Or.inl hmem)

theorem batchPut_mem_of_ne_keys (items : List Item) (store : Store) (it : Item)
    (hmem : it ∈ store) (hne : ∀ x ∈ items, ¬(it.pk = x.pk ∧ it.sk = x.sk)) :
    it ∈ batchPut store items := by
  induction items generalizing store with
  | nil => exact hmem
  | cons x rest ih =>
    exact ih (storePut store x)
      (storePut_mem_of_ne_key store x it hmem (hne x (List.mem_cons_self x rest)))
      (fun y hy => hne y (List.mem_cons_of_mem x hy))

theorem batchPut_mem_self (items : List Item) (store : Store) (it : Item)
    (hit : it ∈ items)
    (hpw : items.Pairwise (fun a b => ¬(a.pk = b.pk ∧ a.sk = b.sk))) :
    it ∈ batchPut store items := by
  induction items generalizing store with
  | nil => simp at hit
  | cons x rest ih =>
    have hpw' := List.pairwise_cons.mp hpw
    rcases List.mem_cons.mp hit with hit | hit
    · subst hit
      exact batchPut_mem_of_ne_keys rest (storePut store it) it
        (storePut_mem_self store it) (fun y hy => hpw'.1 y hy)
    · exact ih (storePut store x) hit hpw'.2

theorem jsSetDedup_ne_nil (l : List String) (h : l ≠ []) : jsSetDedup l ≠ [] := by
  have hlen : ∀ (xs : List String) (acc : List String),
      acc.length ≤ (xs.foldl (fun acc x => if acc.contains x then acc else acc ++ [x]) acc).length := by
    intro xs
    induction xs with
    | nil => intro acc; exact Nat.le_refl _
    | cons x rest ih =>
      intro acc
      rw [List.foldl_cons]
      refine Nat.le_trans ?_ (ih _)
      split
      · exact Nat.le_refl _
      · simp
  cases l with
  | nil => exact absurd rfl h
  | cons x rest =>
    intro hcontra
    have h1 : 1 ≤ (jsSetDedup (x :: rest)).length := by
      unfold jsSetDedup
      rw [List.foldl_cons]
      have : ([] : List String).contains x = false := rfl
      rw [this]
      simpa using hlen rest ([] ++ [x])
    rw [hcontra] at h1
    simp at h1

/-- The scan over the owner's template rows
(`begins_with(PK, "USER#u#TEMPLATE#")`) used for the "available
templates" check. -/
def ownerTemplateScan (store : Store) (u : String) : List Item :=
  store.filter (fun it => beginsWith it.pk ("USER#" ++ u ++ "#TEMPLATE#"))

/-- C3.  Amended: the premise "no EnvelopeBudget rows exist for the
scope" is strengthened to "the envelope scan finds nothing" (the scan
also matches rows of templates whose name properly extends the requested
one), and "the owner has no templates at all" is read as the owner
template scan finding nothing.  Then: with no scanned envelope rows and
no catalog entries for the template, the call fails — unless the name is
exactly "Default" and the owner template scan is empty, in which case it
returns one envelope budget per preset category (the six fixed
categories, amounts and rollover flags) and writes the six corresponding
template rows. -/
theorem getOrCreate_notFound_spec (store : Store) (t m u ts : String) (nowMs : Nat)
    (hscanempty : ∀ it ∈ store, ¬(beginsWith it.pk (envPK u t) = true ∧ it.month = m))
    (hcatalog : store.filter (fun it => it.pk == tmplPK u t) = []) :
    ((t ≠ "Default" ∨ ownerTemplateScan store u ≠ []) →
      ∃ e, getOrCreateEnvelopeBudgets store t m u ts nowMs = .error e) ∧
    (t = "Default" → ownerTemplateScan store u = [] →
      ∃ views store2, getOrCreateEnvelopeBudgets store t m u ts nowMs = .ok (views, store2) ∧
        views.map (fun v => (v.category, v.budget_amount, v.rollover_enabled)) =
          getDefaultTemplateCategories.map (fun c =>
            (c.category, c.budget_amount, c.rollover_enabled)) ∧
        (∀ c ∈ getDefaultTemplateCategories, defaultTemplateItem u "Default" ts c ∈ store2)) := by
  have hscan : scanEnvelopes store u t m = [] := by
    unfold scanEnvelopes
    rw [List.filter_eq_nil_iff]
    intro it hit
    unfold envScanFilter
    have := hscanempty it hit
    cases hbw : beginsWith it.pk (envPK u t) with
    | false => simp
    | true =>
      cases hm : (it.month == m) with
      | false => simp [hm]
      | true => exact absurd ⟨hbw, by simpa using hm⟩ this
  have hstart : getOrCreateEnvelopeBudgets store t m u ts nowMs =
      createEnvelopeBudgetsFromTemplateR store none none t m u ts nowMs := by
    simp only [getOrCreateEnvelopeBudgets, getOrCreateEnvelopeBudgetsR, hscan]
    rfl
  constructor
  · intro hA
    rw [hstart]
    unfold createEnvelopeBudgetsFromTemplateR
    rw [hcatalog]
    have hcond : (t == "Default" &&
        (jsSetDedup ((ownerTemplateScan store u).map (fun it => it.template_name))).isEmpty) =
        false := by
      rcases hA with hA | hA
      · have : (t == "Default") = false := by simpa using hA
        rw [this, Bool.false_and]
      · have hne : (ownerTemplateScan store u).map (fun it => it.template_name) ≠ [] := by
          intro hnil
          exact hA (List.map_eq_nil_iff.mp hnil)
        have := jsSetDedup_ne_nil _ hne
        have : (jsSetDedup ((ownerTemplateScan store u).map (fun it => it.template_name))).isEmpty
            = false := by
          cases hJ : jsSetDedup ((ownerTemplateScan store u).map (fun it => it.template_name)) with
          | nil => exact absurd hJ this
          | cons a l => rfl
        rw [this, Bool.and_false]
    dsimp only
    rw [show (ownerTemplateScan store u) = store.filter
      (fun it => beginsWith it.pk ("USER#" ++ u ++ "#TEMPLATE#")) from rfl] at hcond
    rw [if_pos (by simp), if_neg (by rw [hcond]; simp)]
    exact ⟨_, rfl⟩
  · intro hB1 hB2
    rw [hstart]
    unfold createEnvelopeBudgetsFromTemplateR
    rw [hcatalog]
    have hscan2 : store.filter (fun it => beginsWith it.pk ("USER#" ++ u ++ "#TEMPLATE#")) = [] :=
      hB2
    rw [hscan2]
    subst hB1
    rw [if_pos (by simp)]
    rw [if_pos (by simp [jsSetDedup])]
    refine ⟨_, _, rfl, ?_, ?_⟩
    · simp only [finishCreate, List.map_map]
      rfl
    · intro c hc
      refine batchPut_mem_of_ne_keys _ _ _ ?_ ?_
      · refine batchPut_mem_self _ _ _ (List.mem_map_of_mem _ hc) ?_
        rw [List.pairwise_map]
        have hpwcat : getDefaultTemplateCategories.Pairwise
            (fun a b => a.category ≠ b.category) := by decide
        refine hpwcat.imp ?_
        intro a b hab hcontra
        have hsk : "CATEGORY#" ++ a.category = "CATEGORY#" ++ b.category := hcontra.2
        exact hab (string_append_left_cancel hsk)
      · intro x hx
        obtain ⟨c2, _, hc2⟩ := List.mem_map.mp hx
        rintro ⟨hpk, -⟩
        rw [← hc2] at hpk
        exact envPK_ne_tmplPK u "Default" "Default" hpk.symm

/-- C3 counterexample: no EnvelopeBudget row exists for the scope
(owner `u1`, template `"A"`, month 2024-02), template `"A"` has no
catalog entries, and `"A"` is not the sentinel `"Default"` — the claim
demands a `TemplateNotFound` failure — yet the call succeeds, because
the envelope scan's `begins_with` picks up the stored row of template
`"AB"` for that month and returns it. -/
theorem getOrCreate_notFound_counterexample :
    (∀ it ∈ [testEnvItem "u1" "AB" "2024-02" "Food" 500 true 0],
      ¬(it.pk = envPK "u1" "A" ∧ it.month = "2024-02")) ∧
    ([testEnvItem "u1" "AB" "2024-02" "Food" 500 true 0].filter
      (fun it => it.pk == tmplPK "u1" "A") = []) ∧
    ("A" : String) ≠ "Default" ∧
    (getOrCreateEnvelopeBudgets [testEnvItem "u1" "AB" "2024-02" "Food" 500 true 0]
      "A" "2024-02" "u1" "t0" 0).isOk = true := by
  refine ⟨by decide, by decide, by decide, ?_⟩
  with_unfolding_all decide

/-- Witness for `getOrCreate_notFound_spec` on the empty store with the
sentinel template name. -/
theorem getOrCreate_notFound_spec_witness :
    (∀ it ∈ ([] : Store), ¬(beginsWith it.pk (envPK "u1" "Default") = true ∧
      it.month = "2024-02")) ∧
    (([] : Store).filter (fun it => it.pk == tmplPK "u1" "Default") = []) ∧
    (((("Default" : String) ≠ "Default" ∨ ownerTemplateScan [] "u1" ≠ []) →
      ∃ e, getOrCreateEnvelopeBudgets [] "Default" "2024-02" "u1" "t0" 0 = .error e) ∧
    (("Default" : String) = "Default" → ownerTemplateScan [] "u1" = [] →
      ∃ views store2, getOrCreateEnvelopeBudgets [] "Default" "2024-02" "u1" "t0" 0 =
          .ok (views, store2) ∧
        views.map (fun v => (v.category, v.budget_amount, v.rollover_enabled)) =
          getDefaultTemplateCategories.map (fun c =>
            (c.category, c.budget_amount, c.rollover_enabled)) ∧
        (∀ c ∈ getDefaultTemplateCategories,
          defaultTemplateItem "u1" "Default" "t0" c ∈ store2))) :=
  ⟨by decide, by decide,
    getOrCreate_notFound_spec [] "Default" "2024-02" "u1" "t0" 0 (by decide) (by decide)⟩

/-! ### Analysis-engine characterization -/

theorem lookup_of_mem_nodup (sp : Obj) (kv : String × ℚ)
    (hnd : (sp.map (fun p => p.1)).Nodup) (hmem : kv ∈ sp) :
    sp.lookup kv.1 = some kv.2 := by
  induction sp with
  | nil => simp at hmem
  | cons p tl ih =>
    obtain ⟨a, b⟩ := p
    have hnd2 := hnd
    rw [List.map_cons] at hnd2
    have hnd' := List.nodup_cons.mp hnd2
    rcases List.mem_cons.mp hmem with h | h
    · subst h
      simp
    · have hne : kv.1 ≠ a := by
        intro he
        exact hnd'.1 (he ▸ List.mem_map_of_mem (fun q => q.1) h)
      have hbeq : (kv.1 == a) = false := by simpa using hne
      rw [List.lookup_cons, hbeq]
      exact ih hnd'.2 h

theorem foldl_budgetStep_spec (sp : Obj) (l : List BudgetView) (acc : AnalysisAcc) :
    l.foldl (budgetStep sp) acc =
      { rows := acc.rows ++ l.map (mkBudgetResult sp)
        totalBudgeted := acc.totalBudgeted +
          (l.map (fun b => b.budget_amount + b.rollover_amount)).sum
        totalActual := acc.totalActual + (l.map (fun b => objGet sp b.category)).sum
        overBudgetCategories := acc.overBudgetCategories +
          l.countP (fun b =>
            decide (b.budget_amount + b.rollover_amount < objGet sp b.category)) } := by
  induction l generalizing acc with
  | nil => simp
  | cons b l ih =>
    rw [List.foldl_cons, ih]
    simp only [budgetStep, AnalysisAcc.mk.injEq, List.map_cons, List.sum_cons, List.countP_cons]
    refine ⟨by simp, by ring, by ring, ?_⟩
    by_cases hb : b.budget_amount + b.rollover_amount < objGet sp b.category
    · simp only [if_pos hb, decide_eq_true hb, if_true, eq_self_iff_true]
      omega
    · simp only [if_neg hb, decide_eq_false hb, Bool.false_eq_true, if_false]
      omega

theorem foldl_unbudgetedStep_spec (budgets : List BudgetView) (sp : Obj) (l : Obj)
    (acc : AnalysisAcc) :
    l.foldl (unbudgetedStep budgets sp) acc =
      { rows := acc.rows ++
          (l.filter (fun kv => !(budgets.map (fun b => b.category)).contains kv.1)).map
            (fun kv => mkUnbudgetedResult kv.1 (objGet sp kv.1))
        totalBudgeted := acc.totalBudgeted
        totalActual := acc.totalActual +
          ((l.filter (fun kv => !(budgets.map (fun b => b.category)).contains kv.1)).map
            (fun kv => objGet sp kv.1)).sum
        overBudgetCategories := acc.overBudgetCategories } := by
  induction l generalizing acc with
  | nil => simp
  | cons kv l ih =>
    rw [List.foldl_cons, ih]
    simp only [unbudgetedStep]
    by_cases hc : (budgets.map (fun b => b.category)).contains kv.1 = true
    · rw [if_pos hc]
      rw [List.filter_cons_of_neg (by rw [hc]; exact (by decide))]
    · rw [if_neg hc]
      have hcf : (budgets.map (fun b => b.category)).contains kv.1 = false :=
        Bool.eq_false_iff.mpr hc
      rw [List.filter_cons_of_pos (by rw [hcf]; exact (by decide))]
      simp only [List.map_cons, List.sum_cons, AnalysisAcc.mk.injEq]
      refine ⟨?_, trivial, ?_, trivial⟩
      · simp
      · ring

theorem analysisPass2_spec (budgets : List BudgetView) (sp : Obj) :
    analysisPass2 budgets sp =
      { rows := budgets.map (mkBudgetResult sp) ++
          (sp.filter (fun kv => !(budgets.map (fun b => b.category)).contains kv.1)).map
            (fun kv => mkUnbudgetedResult kv.1 (objGet sp kv.1))
        totalBudgeted := (budgets.map (fun b => b.budget_amount + b.rollover_amount)).sum
        totalActual := (budgets.map (fun b => objGet sp b.category)).sum +
          ((sp.filter (fun kv => !(budgets.map (fun b => b.category)).contains kv.1)).map
            (fun kv => objGet sp kv.1)).sum
        overBudgetCategories := budgets.countP (fun b =>
          decide (b.budget_amount + b.rollover_amount < objGet sp b.category)) } := by
  unfold analysisPass2 analysisPass1
  rw [foldl_budgetStep_spec, foldl_unbudgetedStep_spec]
  simp

theorem round2_zero : round2 0 = 0 := by
  norm_num [round2, jsRound]

/-- C5: every budget row emits a CategoryResult with
`budgeted = budget_amount + rollover_amount`, `actual` the spending-map
entry (`0` when absent), `remaining = budgeted - actual`,
`percentage = round2(actual / budgeted * 100)` guarded by
`budgeted > 0` (the division is never taken with a non-positive
denominator), `has_budget = true`, `unbudgeted_spending = false`; and
the over-budget counter counts exactly the budget rows with
`actual > budgeted`. -/
theorem analysis_budget_rows_spec (budgets : List BudgetView) (sp : Obj) :
    (calculateBudgetAnalysis budgets sp).categoryAnalysis.take budgets.length =
      budgets.map (fun b =>
        { category := b.category
          budgeted := b.budget_amount + b.rollover_amount
          actual := objGet sp b.category
          remaining := b.budget_amount + b.rollover_amount - objGet sp b.category
          percentage := if 0 < b.budget_amount + b.rollover_amount then
              round2 (objGet sp b.category / (b.budget_amount + b.rollover_amount) * 100)
            else 0
          rollover_enabled := b.rollover_enabled
          rollover_amount := b.rollover_amount
          has_budget := true
          unbudgeted_spending := false }) ∧
    (calculateBudgetAnalysis budgets sp).summary.overBudgetCategories =
      budgets.countP (fun b =>
        decide (b.budget_amount + b.rollover_amount < objGet sp b.category)) := by
  constructor
  · have hrows : (calculateBudgetAnalysis budgets sp).categoryAnalysis =
        budgets.map (mkBudgetResult sp) ++
          (sp.filter (fun kv => !(budgets.map (fun b => b.category)).contains kv.1)).map
            (fun kv => mkUnbudgetedResult kv.1 (objGet sp kv.1)) := by
      simp only [calculateBudgetAnalysis, analysisPass2_spec]
    rw [hrows, List.take_left' (by simp)]
    apply List.map_congr_left
    intro b _
    by_cases h : 0 < b.budget_amount + b.rollover_amount
    · simp [mkBudgetResult, h]
    · simp [mkBudgetResult, h, round2_zero]
  · simp only [calculateBudgetAnalysis, analysisPass2_spec]

/-- C4: a category with spending but no budget row appears in the
analysis as `{budgeted := 0, actual, remaining := -actual,
percentage := 0, has_budget := false, unbudgeted_spending := true}`;
the unbudgeted pass adds such actuals to the running total-actual only,
leaving total-budgeted and the over-budget counter untouched. -/
theorem analysis_unbudgeted_spec (budgets : List BudgetView) (sp : Obj) (c : String) (a : ℚ)
    (hc : sp.lookup c = some a)
    (hnb : c ∉ budgets.map (fun b => b.category))
    (hnd : (sp.map (fun p => p.1)).Nodup) :
    mkUnbudgetedResult c a ∈ (calculateBudgetAnalysis budgets sp).categoryAnalysis ∧
    (analysisPass2 budgets sp).totalBudgeted = (analysisPass1 budgets sp).totalBudgeted ∧
    (analysisPass2 budgets sp).overBudgetCategories =
      (analysisPass1 budgets sp).overBudgetCategories ∧
    (analysisPass2 budgets sp).totalActual = (analysisPass1 budgets sp).totalActual +
      ((sp.filter (fun kv => !(budgets.map (fun b => b.category)).contains kv.1)).map
        (fun kv => kv.2)).sum ∧
    (c, a) ∈ sp.filter (fun kv => !(budgets.map (fun b => b.category)).contains kv.1) := by
  have hmem : (c, a) ∈ sp := by
    obtain ⟨l₁, l₂, hsplit, -⟩ := List.lookup_eq_some_iff.mp hc
    rw [hsplit]
    simp
  have hcontains : (budgets.map (fun b => b.category)).contains c = false := by
    cases hcc : (budgets.map (fun b => b.category)).contains c with
    | false => rfl
    | true =>
      obtain ⟨b, hb, hbeq⟩ := List.contains_iff_exists_mem_beq.mp hcc
      exact absurd (by rw [show c = b from by simpa using hbeq]; exact hb) hnb
  have hfiltermem : (c, a) ∈ sp.filter
      (fun kv => !(budgets.map (fun b => b.category)).contains kv.1) :=
    List.mem_filter.mpr ⟨hmem, by rw [show ((c, a) : String × ℚ).1 = c from rfl, hcontains]; rfl⟩
  have hsum : ((sp.filter (fun kv => !(budgets.map (fun b => b.category)).contains kv.1)).map
      (fun kv => objGet sp kv.1)).sum =
      ((sp.filter (fun kv => !(budgets.map (fun b => b.category)).contains kv.1)).map
        (fun kv => kv.2)).sum := by
    congr 1
    apply List.map_congr_left
    intro kv hkv
    have hkvmem : kv ∈ sp := (List.mem_filter.mp hkv).1
    unfold objGet
    rw [lookup_of_mem_nodup sp kv hnd hkvmem]
    rfl
  refine ⟨?_, ?_, ?_, ?_, hfiltermem⟩
  · have hrows : (calculateBudgetAnalysis budgets sp).categoryAnalysis =
        budgets.map (mkBudgetResult sp) ++
          (sp.filter (fun kv => !(budgets.map (fun b => b.category)).contains kv.1)).map
            (fun kv => mkUnbudgetedResult kv.1 (objGet sp kv.1)) := by
      simp only [calculateBudgetAnalysis, analysisPass2_spec]
    rw [hrows]
    refine List.mem_append.mpr (Or.inr ?_)
    refine List.mem_map.mpr ⟨(c, a), hfiltermem, ?_⟩
    have : objGet sp (c, a).1 = a := by
      unfold objGet
      rw [show ((c, a) : String × ℚ).1 = c from rfl, hc]
      rfl
    rw [this]
  · rw [analysisPass2_spec]
    unfold analysisPass1
    rw [foldl_budgetStep_spec]
    simp
  · rw [analysisPass2_spec]
    unfold analysisPass1
    rw [foldl_budgetStep_spec]
    simp
  · rw [analysisPass2_spec]
    unfold analysisPass1
    rw [foldl_budgetStep_spec]
    simp only [zero_add, List.nil_append]
    rw [hsum]

/-- Witness for `analysis_unbudgeted_spec`: one budget row for `"Food"`
and spending of 40 in the unbudgeted category `"Coffee"`. -/
theorem analysis_unbudgeted_spec_witness :
    ([("Coffee", (40 : ℚ))] : Obj).lookup "Coffee" = some 40 ∧
    ("Coffee" ∉ ([⟨"", "T", "Food", 500, "2024-02", true, 0, true, ""⟩] :
      List BudgetView).map (fun b => b.category)) ∧
    ((([("Coffee", (40 : ℚ))] : Obj).map (fun p => p.1)).Nodup) ∧
    (mkUnbudgetedResult "Coffee" 40 ∈ (calculateBudgetAnalysis
        [⟨"", "T", "Food", 500, "2024-02", true, 0, true, ""⟩]
        [("Coffee", 40)]).categoryAnalysis ∧
    (analysisPass2 [⟨"", "T", "Food", 500, "2024-02", true, 0, true, ""⟩] [("Coffee", 40)]).totalBudgeted =
      (analysisPass1 [⟨"", "T", "Food", 500, "2024-02", true, 0, true, ""⟩] [("Coffee", 40)]).totalBudgeted ∧
    (analysisPass2 [⟨"", "T", "Food", 500, "2024-02", true, 0, true, ""⟩] [("Coffee", 40)]).overBudgetCategories =
      (analysisPass1 [⟨"", "T", "Food", 500, "2024-02", true, 0, true, ""⟩] [("Coffee", 40)]).overBudgetCategories ∧
    (analysisPass2 [⟨"", "T", "Food", 500, "2024-02", true, 0, true, ""⟩] [("Coffee", 40)]).totalActual =
      (analysisPass1 [⟨"", "T", "Food", 500, "2024-02", true, 0, true, ""⟩] [("Coffee", 40)]).totalActual +
      ((([("Coffee", (40 : ℚ))] : Obj).filter
        (fun kv => !(([⟨"", "T", "Food", 500, "2024-02", true, 0, true, ""⟩] :
          List BudgetView).map (fun b => b.category)).contains kv.1)).map
        (fun kv => kv.2)).sum ∧
    ("Coffee", (40 : ℚ)) ∈ ([("Coffee", (40 : ℚ))] : Obj).filter
      (fun kv => !(([⟨"", "T", "Food", 500, "2024-02", true, 0, true, ""⟩] :
        List BudgetView).map (fun b => b.category)).contains kv.1)) :=
  ⟨by decide, by decide, by decide,
    analysis_unbudgeted_spec [⟨"", "T", "Food", 500, "2024-02", true, 0, true, ""⟩]
      [("Coffee", 40)] "Coffee" 40 (by decide) (by decide) (by decide)⟩

/-- C6.  Amended: the summary's `totalBudgeted`, `totalActual` and
`totalRemaining` are the two-decimal roundings (`Math.round(x*100)/100`)
of, respectively, the sum of `budget_amount + rollover_amount` over the
budget rows, that sum of budgeted actuals plus all unbudgeted spending,
and raw-total-budgeted minus raw-total-actual; `overBudgetCategories`
counts over-budget budgeted rows only, and `budgetUtilization` is
`round2(totalActual/totalBudgeted*100)` on the raw totals when the raw
total budgeted is positive and `0` otherwise.  The claim's concrete
example holds as stated. -/
theorem analysis_summary_spec :
    (∀ (budgets : List BudgetView) (sp : Obj),
      (calculateBudgetAnalysis budgets sp).summary =
        { totalBudgeted :=
            round2 ((budgets.map (fun b => b.budget_amount + b.rollover_amount)).sum)
          totalActual := round2 ((budgets.map (fun b => objGet sp b.category)).sum +
            ((sp.filter (fun kv => !(budgets.map (fun b => b.category)).contains kv.1)).map
              (fun kv => objGet sp kv.1)).sum)
          totalRemaining :=
            round2 ((budgets.map (fun b => b.budget_amount + b.rollover_amount)).sum -
              ((budgets.map (fun b => objGet sp b.category)).sum +
               ((sp.filter (fun kv => !(budgets.map (fun b => b.category)).contains kv.1)).map
                 (fun kv => objGet sp kv.1)).sum))
          overBudgetCategories := budgets.countP (fun b =>
            decide (b.budget_amount + b.rollover_amount < objGet sp b.category))
          budgetUtilization :=
            if 0 < (budgets.map (fun b => b.budget_amount + b.rollover_amount)).sum then
              round2 (((budgets.map (fun b => objGet sp b.category)).sum +
                ((sp.filter (fun kv => !(budgets.map (fun b => b.category)).contains kv.1)).map
                  (fun kv => objGet sp kv.1)).sum) /
                (budgets.map (fun b => b.budget_amount + b.rollover_amount)).sum * 100)
            else 0 }) ∧
    (calculateBudgetAnalysis
        [⟨"", "T", "A", 500, "2024-05", true, 0, true, ""⟩,
         ⟨"", "T", "B", 200, "2024-05", false, 0, true, ""⟩]
        [("A", 300), ("B", 250)]).summary =
      { totalBudgeted := 700, totalActual := 550, totalRemaining := 150,
        overBudgetCategories := 1, budgetUtilization := 7857/100 } := by
  have hgen : ∀ (budgets : List BudgetView) (sp : Obj),
      (calculateBudgetAnalysis budgets sp).summary =
        { totalBudgeted :=
            round2 ((budgets.map (fun b => b.budget_amount + b.rollover_amount)).sum)
          totalActual := round2 ((budgets.map (fun b => objGet sp b.category)).sum +
            ((sp.filter (fun kv => !(budgets.map (fun b => b.category)).contains kv.1)).map
              (fun kv => objGet sp kv.1)).sum)
          totalRemaining :=
            round2 ((budgets.map (fun b => b.budget_amount + b.rollover_amount)).sum -
              ((budgets.map (fun b => objGet sp b.category)).sum +
               ((sp.filter (fun kv => !(budgets.map (fun b => b.category)).contains kv.1)).map
                 (fun kv => objGet sp kv.1)).sum))
          overBudgetCategories := budgets.countP (fun b =>
            decide (b.budget_amount + b.rollover_amount < objGet sp b.category))
          budgetUtilization :=
            if 0 < (budgets.map (fun b => b.budget_amount + b.rollover_amount)).sum then
              round2 (((budgets.map (fun b => objGet sp b.category)).sum +
                ((sp.filter (fun kv => !(budgets.map (fun b => b.category)).contains kv.1)).map
                  (fun kv => objGet sp kv.1)).sum) /
                (budgets.map (fun b => b.budget_amount + b.rollover_amount)).sum * 100)
            else 0 } := by
    intro budgets sp
    simp only [calculateBudgetAnalysis, analysisPass2_spec]
    simp only [Summary.mk.injEq]
    refine ⟨trivial, trivial, trivial, trivial, ?_⟩
    by_cases hB : 0 < (budgets.map (fun b => b.budget_amount + b.rollover_amount)).sum
    · rw [if_pos hB, if_pos hB]
    · rw [if_neg hB, if_neg hB, round2_zero]
  refine ⟨hgen, ?_⟩
  rw [hgen]
  simp only [List.map_cons, List.map_nil, List.sum_cons, List.sum_nil, objGet,
    List.lookup_cons, List.lookup_nil, List.filter_cons, List.filter_nil,
    List.contains_cons, List.contains_nil, List.countP_cons, List.countP_nil,
    Summary.mk.injEq]
  simp only [String.reduceBEq, Option.getD_some, Option.getD_none]
  norm_num [round2, jsRound]

/-- C6 counterexample: the summary's `totalBudgeted` field is the
two-decimal rounding of the sum, not the sum itself.  For one budget
row of amount 1/200 (0.005) the code reports 1/100 (0.01), while the
sum of `budget_amount + rollover_amount` over the rows is 1/200. -/
theorem analysis_summary_counterexample :
    (calculateBudgetAnalysis [⟨"", "T", "A", 1/200, "2024-05", true, 0, true, ""⟩]
      []).summary.totalBudgeted = 1/100 ∧
    (([⟨"", "T", "A", (1/200 : ℚ), "2024-05", true, 0, true, ""⟩] : List BudgetView).map
      (fun b => b.budget_amount + b.rollover_amount)).sum = 1/200 ∧
    ((1 : ℚ)/100) ≠ 1/200 := by
  refine ⟨?_, by norm_num, by norm_num⟩
  simp only [calculateBudgetAnalysis, analysisPass2_spec]
  simp only [List.map_cons, List.map_nil, List.sum_cons, List.sum_nil, objGet,
    List.lookup_nil, List.filter_nil, List.countP_nil]
  norm_num [round2, jsRound]

/-! ### C7: month arithmetic -/

theorem natDigitsGo_congr : ∀ (f1 f2 n : Nat), n < f1 → n < f2 →
    natDigitsGo f1 n = natDigitsGo f2 n := by
  intro f1
  induction f1 with
  | zero => intro f2 n h1 _; omega
  | succ f1 ih =>
    intro f2 n h1 h2
    cases f2 with
    | zero => omega
    | succ f2 =>
      unfold natDigitsGo
      by_cases hn : n < 10
      · rw [if_pos hn, if_pos hn]
      · rw [if_neg hn, if_neg hn, ih f2 (n / 10) (by omega) (by omega)]

theorem char_ofNat_digit_toNat (k : Nat) (hk : k < 10) :
    (Char.ofNat (48 + k)).toNat = 48 + k := by
  interval_cases k <;> decide

theorem char_ofNat_digit_ne_dash (k : Nat) (hk : k < 10) : Char.ofNat (48 + k) ≠ '-' := by
  interval_cases k <;> decide

theorem parseDigits_append (a b : List Char) :
    parseDigits (a ++ b) = b.foldl (fun x c => x * 10 + (c.toNat - 48)) (parseDigits a) := by
  unfold parseDigits
  rw [List.foldl_append]

theorem parseDigits_natDigitsGo : ∀ (f n : Nat), n < f →
    parseDigits (natDigitsGo f n) = n := by
  intro f
  induction f with
  | zero => intro n h; omega
  | succ f ih =>
    intro n h
    unfold natDigitsGo
    by_cases hn : n < 10
    · rw [if_pos hn]
      unfold parseDigits
      simp [char_ofNat_digit_toNat n hn]
    · rw [if_neg hn, parseDigits_append, ih (n / 10) (by omega)]
      simp only [List.foldl_cons, List.foldl_nil]
      rw [char_ofNat_digit_toNat (n % 10) (by omega)]
      omega

theorem parseDigits_natDigits (n : Nat) : parseDigits (natDigits n) = n :=
  parseDigits_natDigitsGo (n + 1) n (Nat.lt_succ_self n)

theorem natDigitsGo_no_dash : ∀ (f n : Nat), n < f → '-' ∉ natDigitsGo f n := by
  intro f
  induction f with
  | zero => intro n h; omega
  | succ f ih =>
    intro n h
    unfold natDigitsGo
    by_cases hn : n < 10
    · rw [if_pos hn]
      intro hmem
      exact char_ofNat_digit_ne_dash n hn (List.mem_singleton.mp hmem).symm
    · rw [if_neg hn]
      intro hmem
      rcases List.mem_append.mp hmem with hmem | hmem
      · exact ih (n / 10) (by omega) hmem
      · exact char_ofNat_digit_ne_dash (n % 10) (by omega) (List.mem_singleton.mp hmem).symm

theorem natDigits_no_dash (n : Nat) : '-' ∉ natDigits n :=
  natDigitsGo_no_dash (n + 1) n (Nat.lt_succ_self n)

theorem natToString_data (n : Nat) : (natToString n).data = natDigits n := rfl

theorem pad2_data (m : Nat) :
    (pad2 m).data = if m < 10 then '0' :: natDigits m else natDigits m := by
  unfold pad2
  by_cases h : m < 10
  · rw [if_pos h, if_pos h]
    rfl
  · rw [if_neg h, if_neg h]
    rfl

theorem pad2_no_dash (m : Nat) : '-' ∉ (pad2 m).data := by
  rw [pad2_data]
  by_cases h : m < 10
  · rw [if_pos h]
    intro hmem
    rcases List.mem_cons.mp hmem with hmem | hmem
    · exact absurd hmem.symm (by decide)
    · exact natDigits_no_dash m hmem
  · rw [if_neg h]
    exact natDigits_no_dash m

theorem parseDigits_pad2 (m : Nat) : parseDigits (pad2 m).data = m := by
  rw [pad2_data]
  by_cases h : m < 10
  · rw [if_pos h]
    have h0 : parseDigits ('0' :: natDigits m) = parseDigits (natDigits m) := by
      unfold parseDigits
      simp only [List.foldl_cons]
      norm_num [show ('0').toNat = 48 from rfl]
    rw [h0]
    exact parseDigits_natDigits m
  · rw [if_neg h]
    exact parseDigits_natDigits m

theorem splitOnChar_cons_self (c : Char) (xs : List Char) :
    splitOnChar c (c :: xs) = [] :: splitOnChar c xs := by
  simp only [splitOnChar]
  simp

theorem splitOnChar_cons_ne (c x : Char) (xs : List Char) (hx : ¬(x = c)) :
    splitOnChar c (x :: xs) =
      (x :: (splitOnChar c xs).headD []) :: (splitOnChar c xs).tail := by
  simp only [splitOnChar]
  rw [if_neg hx]

theorem splitOnChar_no_sep (c : Char) : ∀ (a : List Char), c ∉ a →
    splitOnChar c a = [a] := by
  intro a
  induction a with
  | nil => intro _; rfl
  | cons x xs ih =>
    intro hc
    have hx : ¬(x = c) := fun h => hc (h ▸ List.mem_cons_self x xs)
    rw [splitOnChar_cons_ne c x xs hx, ih (fun h => hc (List.mem_cons_of_mem x h))]
    rfl

theorem splitOnChar_append_singleton (c : Char) : ∀ (a b : List Char), c ∉ a →
    splitOnChar c (a ++ c :: b) = a :: splitOnChar c b := by
  intro a
  induction a with
  | nil =>
    intro b _
    show splitOnChar c (c :: b) = [] :: splitOnChar c b
    exact splitOnChar_cons_self c b
  | cons x xs ih =>
    intro b hc
    have hx : ¬(x = c) := fun h => hc (h ▸ List.mem_cons_self x xs)
    have hxs : c ∉ xs := fun h => hc (List.mem_cons_of_mem x h)
    show splitOnChar c (x :: (xs ++ c :: b)) = (x :: xs) :: splitOnChar c b
    rw [splitOnChar_cons_ne c x _ hx, ih b hxs]
    rfl

theorem monthString_data (y m : Nat) :
    (monthString y m).data = natDigits y ++ '-' :: (pad2 m).data := by
  unfold monthString
  rw [String.data_append, String.data_append, natToString_data]
  rw [List.append_assoc]
  rfl

/-- C7.  Amended: for month strings `YYYY-MM` with `1000 ≤ YYYY ≤ 9999`
and `01 ≤ MM ≤ 12`, excluding `1000-01` (whose predecessor year 999 is
printed without four digits), `getPreviousMonth` returns the `YYYY-MM`
string of the calendar month immediately preceding, rolling the year
back at January and zero-padding the month field to two digits.  (Years
0000–0099 hit ECMA-262's two-digit-year rule, year ≤ 999 predecessors
print unpadded — see the counterexample.) -/
theorem getPreviousMonth_spec (y m : Nat) (hy1 : 1000 ≤ y) (hy2 : y ≤ 9999)
    (hm1 : 1 ≤ m) (hm2 : m ≤ 12) (hx : ¬(y = 1000 ∧ m = 1)) :
    getPreviousMonth (monthString y m) =
      if m = 1 then monthString (y - 1) 12 else monthString y (m - 1) := by
  have hsplit : splitOnChar '-' (monthString y m).data = [natDigits y, (pad2 m).data] := by
    rw [monthString_data, splitOnChar_append_singleton '-' _ _ (natDigits_no_dash y),
      splitOnChar_no_sep '-' _ (pad2_no_dash m)]
  simp only [getPreviousMonth, hsplit, List.map_cons, List.map_nil,
    parseDigits_natDigits, parseDigits_pad2, List.getD_cons_zero, List.getD_cons_succ]
  rw [if_neg (by omega)]
  by_cases hm : m = 1
  · subst hm
    have h1 : ((y : Int) * 12 + (((1 : Nat) : Int) - 1) - 1) / 12 = (y : Int) - 1 := by
      omega
    have h2 : ((y : Int) * 12 + (((1 : Nat) : Int) - 1) - 1) % 12 = 11 := by
      omega
    rw [h1, h2, if_pos rfl]
    unfold intToString
    rw [if_neg (by omega)]
    have h3 : ((y : Int) - 1).toNat = y - 1 := by omega
    have h4 : ((11 : Int) + 1).toNat = 12 := by decide
    rw [h3, h4]
    rfl
  · have hm2' : 2 ≤ m := by omega
    have h1 : ((y : Int) * 12 + ((m : Int) - 1) - 1) / 12 = (y : Int) := by
      omega
    have h2 : ((y : Int) * 12 + ((m : Int) - 1) - 1) % 12 = (m : Int) - 2 := by
      omega
    rw [h1, h2, if_neg hm]
    unfold intToString
    rw [if_neg (by omega)]
    have h3 : ((y : Int)).toNat = y := by omega
    have h4 : ((m : Int) - 2 + 1).toNat = m - 1 := by omega
    rw [h3, h4]
    rfl

/-- C7 counterexample: `"0099-01"` is a well-formed `YYYY-MM` month
string with month 01, whose calendar-preceding month is `0098-12`; the
code returns `"1998-12"` because JS `Date` treats year arguments 0–99 as
1900–1999. -/
theorem getPreviousMonth_counterexample :
    getPreviousMonth "0099-01" = "1998-12" ∧ getPreviousMonth "0099-01" ≠ "0098-12" := by
  constructor
  · decide
  · decide

/-- Witness for `getPreviousMonth_spec` at the claim's boundary example
`2024-01` → `2023-12`. -/
theorem getPreviousMonth_spec_witness :
    (1000 ≤ 2024 ∧ 2024 ≤ 9999 ∧ 1 ≤ 1 ∧ 1 ≤ 12 ∧ ¬(2024 = 1000 ∧ 1 = 1)) ∧
    getPreviousMonth (monthString 2024 1) =
      (if 1 = 1 then monthString (2024 - 1) 12 else monthString 2024 (1 - 1)) :=
  ⟨by decide,
    getPreviousMonth_spec 2024 1 (by decide) (by decide) (by decide) (by decide) (by decide)⟩

/-! ### C8: budget-amount updates touch only the targeted attribute -/

theorem sk_append_inj (m c1 c2 : String) (h : m ++ "#" ++ c1 = m ++ "#" ++ c2) : c1 = c2 := by
  rw [String.append_assoc, String.append_assoc] at h
  exact string_append_left_cancel (string_append_left_cancel h)

theorem getElem_list_eq {α : Type} (l1 l2 : List α) (h : l1 = l2) (i : Nat)
    (hi : i < l1.length) (hi2 : i < l2.length) : l1[i] = l2[i] := by
  subst h
  rfl

/-- C8: when every `{category, amount}` entry of an update request
targets an existing row and the request's categories are distinct, the
update changes exactly the targeted rows' `budget_amount` to the
supplied amount; all other attributes of targeted rows, and all rows not
named by the request, are unchanged (positionally, so the store keeps
the same rows). -/
theorem updateBudget_frame_spec (budgets : List (String × ℚ)) (store : Store) (u t m : String)
    (hex : ∀ b ∈ budgets, ∃ o ∈ store, o.pk = envPK u t ∧ o.sk = m ++ "#" ++ b.1)
    (hnd : (budgets.map Prod.fst).Nodup) :
    (updateEnvelopeBudgets store u t m budgets).length = store.length ∧
    (∀ i (hi : i < store.length) (hi2 : i < (updateEnvelopeBudgets store u t m budgets).length),
      ((∀ b ∈ budgets, ¬(store[i].pk = envPK u t ∧ store[i].sk = m ++ "#" ++ b.1)) →
        (updateEnvelopeBudgets store u t m budgets)[i] = store[i]) ∧
      (∀ b ∈ budgets, store[i].pk = envPK u t → store[i].sk = m ++ "#" ++ b.1 →
        (updateEnvelopeBudgets store u t m budgets)[i] =
          { store[i] with budget_amount := b.2 })) := by
  induction budgets generalizing store with
  | nil =>
    refine ⟨rfl, ?_⟩
    intro i hi hi2
    exact ⟨fun _ => rfl, fun b hb => absurd hb (by simp)⟩
  | cons b bs ih =>
    have hexb := hex b (List.mem_cons_self b bs)
    have hany : store.any (fun o => o.pk == envPK u t && o.sk == (m ++ "#" ++ b.1)) = true := by
      obtain ⟨o, ho, hpk, hsk⟩ := hexb
      exact List.any_eq_true.mpr ⟨o, ho, by simp [hpk, hsk]⟩
    have hstep : applyBudgetUpdate u t m store b =
        store.map (fun o => if o.pk == envPK u t && o.sk == (m ++ "#" ++ b.1) then
          { o with budget_amount := b.2 } else o) := by
      unfold applyBudgetUpdate
      rw [if_pos hany]
    have hlen1 : (applyBudgetUpdate u t m store b).length = store.length := by
      rw [hstep, List.length_map]
    have hget1 : ∀ i (hi : i < store.length)
        (hib : i < (applyBudgetUpdate u t m store b).length),
        (applyBudgetUpdate u t m store b)[i] =
          if store[i].pk = envPK u t ∧ store[i].sk = m ++ "#" ++ b.1 then
            { store[i] with budget_amount := b.2 } else store[i] := by
      intro i hi hib
      have hmap : (applyBudgetUpdate u t m store b)[i] =
          (if store[i].pk == envPK u t && store[i].sk == (m ++ "#" ++ b.1) then
            { store[i] with budget_amount := b.2 } else store[i]) := by
        simp only [hstep, List.getElem_map]
      rw [hmap]
      by_cases hmatch : store[i].pk = envPK u t ∧ store[i].sk = m ++ "#" ++ b.1
      · rw [if_pos (by simp [hmatch.1, hmatch.2]), if_pos hmatch]
      · rw [if_neg (by simpa using hmatch), if_neg hmatch]
    have hkeys : ∀ i (hi : i < store.length)
        (hib : i < (applyBudgetUpdate u t m store b).length),
        ((applyBudgetUpdate u t m store b)[i]).pk = store[i].pk ∧
        ((applyBudgetUpdate u t m store b)[i]).sk = store[i].sk := by
      intro i hi hib
      rw [hget1 i hi hib]
      by_cases hmatch : store[i].pk = envPK u t ∧ store[i].sk = m ++ "#" ++ b.1
      · rw [if_pos hmatch]
        exact ⟨rfl, rfl⟩
      · rw [if_neg hmatch]
        exact ⟨rfl, rfl⟩
    have hnd' : (bs.map Prod.fst).Nodup := by
      have := hnd
      rw [List.map_cons] at this
      exact (List.nodup_cons.mp this).2
    have hbnotin : b.1 ∉ bs.map Prod.fst := by
      have := hnd
      rw [List.map_cons] at this
      exact (List.nodup_cons.mp this).1
    have hex' : ∀ b2 ∈ bs, ∃ o ∈ applyBudgetUpdate u t m store b,
        o.pk = envPK u t ∧ o.sk = m ++ "#" ++ b2.1 := by
      intro b2 hb2
      obtain ⟨o, ho, hpk, hsk⟩ := hex b2 (List.mem_cons_of_mem b hb2)
      obtain ⟨i, hi, hoi⟩ := List.mem_iff_getElem.mp ho
      have hib : i < (applyBudgetUpdate u t m store b).length := by
        rw [hlen1]
        exact hi
      refine ⟨(applyBudgetUpdate u t m store b)[i], List.getElem_mem _, ?_⟩
      rw [(hkeys i hi hib).1, (hkeys i hi hib).2, hoi]
      exact ⟨hpk, hsk⟩
    have hrest := ih (applyBudgetUpdate u t m store b) hex' hnd'
    have hfold : updateEnvelopeBudgets store u t m (b :: bs) =
        updateEnvelopeBudgets (applyBudgetUpdate u t m store b) u t m bs := by
      simp only [updateEnvelopeBudgets, List.foldl_cons]
    constructor
    · rw [hfold, hrest.1, hlen1]
    · intro i hi hi2
      have hi1 : i < (applyBudgetUpdate u t m store b).length := by
        rw [hlen1]
        exact hi
      have hi2' : i < (updateEnvelopeBudgets (applyBudgetUpdate u t m store b) u t m bs).length := by
        rw [hrest.1]
        exact hi1
      have hrI := hrest.2 i hi1 hi2'
      have hcast : (updateEnvelopeBudgets store u t m (b :: bs))[i] =
          (updateEnvelopeBudgets (applyBudgetUpdate u t m store b) u t m bs)[i] :=
        getElem_list_eq _ _ hfold i hi2 hi2'
      constructor
      · intro hnone
        have hnb : ¬(store[i].pk = envPK u t ∧ store[i].sk = m ++ "#" ++ b.1) :=
          hnone b (List.mem_cons_self b bs)
        have h1 : (applyBudgetUpdate u t m store b)[i] = store[i] := by
          rw [hget1 i hi hi1, if_neg hnb]
        have h2 : (updateEnvelopeBudgets (applyBudgetUpdate u t m store b) u t m bs)[i] =
            (applyBudgetUpdate u t m store b)[i] := by
          apply hrI.1
          intro b2 hb2
          rw [h1]
          exact hnone b2 (List.mem_cons_of_mem b hb2)
        exact hcast.trans (h2.trans h1)
      · intro b0 hb0 hpk0 hsk0
        rcases List.mem_cons.mp hb0 with hb0 | hb0
        · have hsk0' : store[i].sk = m ++ "#" ++ b.1 := by rw [hsk0, hb0]
          have h1 : (applyBudgetUpdate u t m store b)[i] =
              { store[i] with budget_amount := b.2 } := by
            rw [hget1 i hi hi1, if_pos ⟨hpk0, hsk0'⟩]
          have h2 : (updateEnvelopeBudgets (applyBudgetUpdate u t m store b) u t m bs)[i] =
              (applyBudgetUpdate u t m store b)[i] := by
            apply hrI.1
            intro b2 hb2
            rw [h1]
            rintro ⟨-, hsk2⟩
            have hcat : b.1 = b2.1 := sk_append_inj m b.1 b2.1 (hsk0'.symm.trans hsk2)
            exact hbnotin (hcat ▸ List.mem_map_of_mem Prod.fst hb2)
          rw [hb0]
          exact hcast.trans (h2.trans h1)
        · have hnb : ¬(store[i].pk = envPK u t ∧ store[i].sk = m ++ "#" ++ b.1) := by
            rintro ⟨-, hskb⟩
            have hcat : b0.1 = b.1 := sk_append_inj m b0.1 b.1 (hsk0.symm.trans hskb)
            exact hbnotin (hcat ▸ List.mem_map_of_mem Prod.fst hb0)
          have h1 : (applyBudgetUpdate u t m store b)[i] = store[i] := by
            rw [hget1 i hi hi1, if_neg hnb]
          have h2 : (updateEnvelopeBudgets (applyBudgetUpdate u t m store b) u t m bs)[i] =
              { store[i] with budget_amount := b0.2 } := by
            have hT := hrI.2 b0 hb0
            rw [h1] at hT
            exact hT hpk0 hsk0
          exact hcast.trans h2

/-- Witness for `updateBudget_frame_spec`: one stored row for `"Food"`
updated to amount 250. -/
theorem updateBudget_frame_spec_witness :
    (∀ b ∈ [(("Food" : String), (250 : ℚ))],
      ∃ o ∈ [testEnvItem "u1" "T" "2024-03" "Food" 500 true 0],
        o.pk = envPK "u1" "T" ∧ o.sk = "2024-03" ++ "#" ++ b.1) ∧
    (([(("Food" : String), (250 : ℚ))].map Prod.fst).Nodup) ∧
    ((updateEnvelopeBudgets [testEnvItem "u1" "T" "2024-03" "Food" 500 true 0] "u1" "T" "2024-03"
        [("Food", 250)]).length = [testEnvItem "u1" "T" "2024-03" "Food" 500 true 0].length ∧
    (∀ i (hi : i < [testEnvItem "u1" "T" "2024-03" "Food" 500 true 0].length)
        (hi2 : i < (updateEnvelopeBudgets [testEnvItem "u1" "T" "2024-03" "Food" 500 true 0]
          "u1" "T" "2024-03" [("Food", 250)]).length),
      ((∀ b ∈ [(("Food" : String), (250 : ℚ))],
        ¬([testEnvItem "u1" "T" "2024-03" "Food" 500 true 0][i].pk = envPK "u1" "T" ∧
          [testEnvItem "u1" "T" "2024-03" "Food" 500 true 0][i].sk = "2024-03" ++ "#" ++ b.1)) →
        (updateEnvelopeBudgets [testEnvItem "u1" "T" "2024-03" "Food" 500 true 0] "u1" "T"
          "2024-03" [("Food", 250)])[i] = [testEnvItem "u1" "T" "2024-03" "Food" 500 true 0][i]) ∧
      (∀ b ∈ [(("Food" : String), (250 : ℚ))],
        [testEnvItem "u1" "T" "2024-03" "Food" 500 true 0][i].pk = envPK "u1" "T" →
        [testEnvItem "u1" "T" "2024-03" "Food" 500 true 0][i].sk = "2024-03" ++ "#" ++ b.1 →
        (updateEnvelopeBudgets [testEnvItem "u1" "T" "2024-03" "Food" 500 true 0] "u1" "T"
          "2024-03" [("Food", 250)])[i] =
          { [testEnvItem "u1" "T" "2024-03" "Food" 500 true 0][i] with budget_amount := b.2 }))) :=
  ⟨by decide, by decide,
    updateBudget_frame_spec [("Food", 250)] [testEnvItem "u1" "T" "2024-03" "Food" 500 true 0]
      "u1" "T" "2024-03" (by decide) (by decide)⟩

/-! ### C9: the spending aggregator's case-sensitive type filter -/

/-- A transaction row exactly as the repository's own code writes it:
the recurring-transaction executor validates `type` against the
lowercase literals `['income', 'expense']` and copies it into the stored
transaction. -/
def lowercaseExpenseTxn : Item where
  pk := "USER#default#TRANSACTION"
  sk := "TRANSACTION#1"
  gsi1pk := "MONTH#2024-05"
  gsi1sk := "Food#1"
  id := "1"
  template_name := ""
  category := "Food"
  budget_amount := 0
  month := ""
  rollover_enabled := false
  rollover_amount := 0
  is_active := true
  created_at := ""
  user_id := "default"
  type := "expense"
  amount := 50
  date := "2024-05-10"

/-- C9 failing input: `getActualSpending` filters on
`#type = 'Expense'` exactly, so an expense-typed transaction stored with
the repository's own lowercase `"expense"` casing contributes nothing —
the result is the empty map instead of `{Food: 50}`; flipping only the
casing of the same row yields `{Food: 50}`. -/
theorem getActualSpending_casing_bug :
    getActualSpending [lowercaseExpenseTxn] "2024-05" "default" = [] ∧
    getActualSpending [{ lowercaseExpenseTxn with type := "Expense" }] "2024-05" "default" =
      [("Food", 50)] := by
  constructor
  · with_unfolding_all decide
  · with_unfolding_all decide

/-! ### C10: storage failures on the rollover side are swallowed -/

/-- C10: a failed read inside `getActualSpending` or
`calculateRolloverAmounts` is caught and turned into the empty map; as a
consequence, a `getOrCreateEnvelopeBudgets` call whose rollover-side
reads both fail still succeeds, creating every envelope budget with
`rollover_amount = 0`, and no storage error reaches the caller. -/
theorem rollover_storage_error_swallowed (store : Store) (t m u ts : String) (nowMs : Nat)
    (e1 e2 : String)
    (hempty : scanEnvelopes store u t m = [])
    (htmpl : store.filter (fun it => it.pk == tmplPK u t) ≠ []) :
    getActualSpendingR (.error e1) m u = [] ∧
    calculateRolloverAmountsR (.error e1) (.error e2) t (getPreviousMonth m) u = [] ∧
    (∃ views store2,
      getOrCreateEnvelopeBudgetsR store (some e1) (some e2) t m u ts nowMs =
        .ok (views, store2) ∧
      ∀ v ∈ views, v.rollover_amount = 0) := by
  refine ⟨rfl, rfl, ?_⟩
  have hne : ¬((store.filter (fun it => it.pk == tmplPK u t)).isEmpty = true) := by
    intro hcontra
    exact htmpl (List.isEmpty_iff.mp hcontra)
  have hres : getOrCreateEnvelopeBudgetsR store (some e1) (some e2) t m u ts nowMs =
      .ok (finishCreate store (some e1) (some e2)
        ((store.filter (fun it => it.pk == tmplPK u t)).map itemToTemplateCategory)
        t m u ts nowMs) := by
    simp only [getOrCreateEnvelopeBudgetsR, hempty, List.isEmpty_nil, if_true,
      createEnvelopeBudgetsFromTemplateR]
    rw [if_neg hne]
  refine ⟨_, _, hres, ?_⟩
  intro v hv
  obtain ⟨it, hit, hview⟩ := List.mem_map.mp hv
  obtain ⟨tc, _, hmk⟩ := List.mem_map.mp hit
  rw [← hview, ← hmk]
  rfl

/-- Witness for `rollover_storage_error_swallowed`: a store holding one
template row and no envelope rows, with both rollover-side reads
failing. -/
theorem rollover_storage_error_swallowed_witness :
    (scanEnvelopes [defaultTemplateItem "u1" "T" "t0" ⟨"Food", 500, true⟩] "u1" "T"
      "2024-02" = []) ∧
    ([defaultTemplateItem "u1" "T" "t0" ⟨"Food", 500, true⟩].filter
      (fun it => it.pk == tmplPK "u1" "T") ≠ []) ∧
    (getActualSpendingR (.error "boom1") "2024-02" "u1" = [] ∧
    calculateRolloverAmountsR (.error "boom1") (.error "boom2") "T"
      (getPreviousMonth "2024-02") "u1" = [] ∧
    (∃ views store2,
      getOrCreateEnvelopeBudgetsR [defaultTemplateItem "u1" "T" "t0" ⟨"Food", 500, true⟩]
        (some "boom1") (some "boom2") "T" "2024-02" "u1" "ts" 0 = .ok (views, store2) ∧
      ∀ v ∈ views, v.rollover_amount = 0)) :=
  ⟨by decide, by decide,
    rollover_storage_error_swallowed [defaultTemplateItem "u1" "T" "t0" ⟨"Food", 500, true⟩]
      "T" "2024-02" "u1" "ts" 0 "boom1" "boom2" (by decide) (by decide)⟩

end SpendSmart
